import Mathlib

/-!
# Timeline scheduler on FreeRTOS: embedding and verified properties

The development embeds two source variants of the scheduler.

* `Demo`  : `Demo/timeline_scheduler.c`, `Demo/timeline_scheduler.h`,
  `Demo/trace.c`, `Demo/trace.h` (one dispatcher task that spawns, polls and
  kills one worker per HARD_RT slot and logs every transition).
* `Sched` : `scheduler.c`, `scheduler.h` (sub-frame tables, in-line bodies).

The FreeRTOS kernel is external.  It is modelled by an oracle `Kernel` that
answers the k-th kernel call of a run, so that every statement quantified
over `Kernel` holds for every clock behaviour, every outcome of task creation
and every sequence of task states.  The tick counter is a natural number
that does not wrap: runs in which the counter overflows are outside the
model.  What the program computes from a tick in `TickType_t` arithmetic (a
start tick, a deadline, the end of a frame) is reduced modulo `2 ^ tickBits`,
the width of `TickType_t` on the port.
-/

namespace Demo

/-! ## Kernel types and constants -/

/-- The signed base type.  The unsigned types `TickType_t`, `UBaseType_t` and
`uint32_t` are all rendered as `Nat`. -/
abbrev BaseType_t := Int

abbrev pdFALSE : BaseType_t := 0
abbrev pdTRUE : BaseType_t := 1
abbrev pdFAIL : BaseType_t := 0
abbrev pdPASS : BaseType_t := 1

/-- A task handle; `none` is the NULL handle. -/
abbrev TaskHandle_t := Option Nat

/-- Task states reported by `eTaskGetState`. -/
inductive eTaskState where
  | eRunning
  | eReady
  | eBlocked
  | eSuspended
  | eDeleted
  | eInvalid
  deriving DecidableEq

/-- Task entry points: the dispatcher itself, or an application function
identified by a number. -/
inductive TaskFunction_t where
  | prvSchedulerTask
  | app (id : Nat)
  deriving DecidableEq

/-! ## trace.h -/

/-- The C enumeration `TraceEvent_t`; an enumeration object holds an integer. -/
abbrev TraceEvent_t := Nat

abbrev TRACE_EVENT_MAJOR_FRAME_START : TraceEvent_t := 0
abbrev TRACE_EVENT_TASK_SPAWN : TraceEvent_t := 1
abbrev TRACE_EVENT_TASK_COMPLETE : TraceEvent_t := 2
abbrev TRACE_EVENT_DEADLINE_MISS : TraceEvent_t := 3
abbrev TRACE_EVENT_TASK_CREATE_FAILED : TraceEvent_t := 4
abbrev TRACE_EVENT_IDLE_START : TraceEvent_t := 5
abbrev TRACE_EVENT_IDLE_END : TraceEvent_t := 6

/-- The enumerators of `TraceEvent_t` with their identifiers (without the
`TRACE_EVENT_` stem), in declaration order. -/
def TraceEvent_enumerators : List (TraceEvent_t × String) :=
  [ (TRACE_EVENT_MAJOR_FRAME_START, "MAJOR_FRAME_START"),
    (TRACE_EVENT_TASK_SPAWN, "TASK_SPAWN"),
    (TRACE_EVENT_TASK_COMPLETE, "TASK_COMPLETE"),
    (TRACE_EVENT_DEADLINE_MISS, "DEADLINE_MISS"),
    (TRACE_EVENT_TASK_CREATE_FAILED, "TASK_CREATE_FAILED"),
    (TRACE_EVENT_IDLE_START, "IDLE_START"),
    (TRACE_EVENT_IDLE_END, "IDLE_END") ]

/-! ## timeline_scheduler.h -/

def MAX_TASKS : Nat := 16

inductive TaskType_t where
  | TASK_TYPE_HARD_RT
  | TASK_TYPE_SOFT_RT
  deriving DecidableEq

structure TimelineTaskConfig_t where
  pvTaskCode : TaskFunction_t
  pcName : String
  xTaskType : TaskType_t
  ulStartTimeTicks : Nat
  ulEndTimeTicks : Nat
  ulSubframeId : Nat
  deriving DecidableEq

/-- The plan: `pxTasks = none` is a NULL array pointer, otherwise the array
the pointer designates; `uxNumTasks` is the separate element count. -/
structure TimelineConfig_t where
  pxTasks : Option (List TimelineTaskConfig_t)
  uxNumTasks : Nat
  deriving DecidableEq

/-! ## timeline_scheduler.c : private data -/

/-- Internal state of a managed task.  The pointer `pxConfig` into the plan is
represented by the entry it designates; `none` is NULL or a pointer past the
last element of the array. -/
structure ManagedTask_t where
  pxConfig : Option TimelineTaskConfig_t
  xHandle : TaskHandle_t
  xIsActive : BaseType_t
  deriving DecidableEq

/-! ## The kernel as an oracle, and the observable log -/

/-- One call made to the kernel or to the trace module, with its arguments
and, where there is one, its result. -/
inductive KCall where
  | xTaskGetTickCount (ret : Nat)
  | vTaskDelay (xTicksToDelay : Nat)
  | xTaskCreate (pvTaskCode : TaskFunction_t) (pcName : String) (usStackDepth : Nat)
      (uxPriority : Nat) (created : TaskHandle_t)
  | eTaskGetState (xTask : TaskHandle_t) (ret : eTaskState)
  | vTaskDelete (xTask : TaskHandle_t)
  | xSemaphoreCreateMutex (ret : Option Nat)
  | vTraceLog (xEvent : TraceEvent_t) (pcTaskName : String) (xTick : Nat)
  deriving DecidableEq

/-- A logged call together with the `xIsActive` flags of the managed-task
table at the moment of the call (history variable). -/
structure Obs where
  call : KCall
  active : List Bool
  deriving DecidableEq

/-- The external kernel.  Each field indexed by `Nat` answers the k-th call of
the run when that call is of the matching kind.

* `elapse k`  ticks that pass before call `k` takes effect (for a delay: in
  addition to the requested ticks);
* `create k`  outcome of `xTaskCreate`: `some h` stores handle `h` through the
  out-parameter, `none` is an allocation failure that leaves it untouched;
* `state k`   answer of `eTaskGetState`;
* `mutex k`   answer of `xSemaphoreCreateMutex`;
* `take k`    answer of `xSemaphoreTake`.

`tickBits` and `ulongBits` are the widths of `TickType_t` and of
`unsigned long` on the port. -/
structure Kernel where
  configTICK_RATE_HZ : Nat
  configMINIMAL_STACK_SIZE : Nat
  tskIDLE_PRIORITY : Nat
  tickBits : Nat
  ulongBits : Nat
  elapse : Nat → Nat
  create : Nat → Option Nat
  state : Nat → eTaskState
  mutex : Nat → Option Nat
  take : Nat → BaseType_t

/-- The FreeRTOS macro `pdMS_TO_TICKS`; the tick rate is a constant of the
port, carried by `Kernel`. -/
def pdMS_TO_TICKS (K : Kernel) (xTimeInMs : Nat) : Nat :=
  xTimeInMs * K.configTICK_RATE_HZ / 1000

def MAJOR_FRAME_DURATION_TICKS (K : Kernel) : Nat := pdMS_TO_TICKS K 100

/-- The file-scope state of `timeline_scheduler.c` and `trace.c`, the kernel
clock, and what has been observed so far. -/
structure Sys where
  xSchedulerConfig : TimelineConfig_t
  xManagedTasks : List ManagedTask_t
  uxManagedTasksCount : Nat
  xSchedulerTaskHandle : TaskHandle_t
  xTraceMutex : Option Nat
  tick : Nat
  calls : Nat
  log : List Obs
  uart : List String

/-- The state at program start: zero-initialised statics, empty history. -/
def Sys.boot : Sys :=
  { xSchedulerConfig := { pxTasks := none, uxNumTasks := 0 }
    xManagedTasks := List.replicate MAX_TASKS { pxConfig := none, xHandle := none, xIsActive := 0 }
    uxManagedTasksCount := 0
    xSchedulerTaskHandle := none
    xTraceMutex := none
    tick := 0
    calls := 0
    log := []
    uart := [] }

/-- The truth value of `xIsActive` as tested by `while (xIsActive)`. -/
def ManagedTask_t.active (m : ManagedTask_t) : Bool := decide (m.xIsActive ≠ 0)

/-- The active flags of the whole table. -/
def Sys.active (s : Sys) : List Bool := s.xManagedTasks.map ManagedTask_t.active

/-- The `pxConfig` column of the table: the plan entry of every slot. -/
def Sys.plan (s : Sys) : List (Option TimelineTaskConfig_t) :=
  s.xManagedTasks.map (fun m => m.pxConfig)

/-- Append a call to the log and advance the call counter. -/
def Sys.observe (s : Sys) (c : KCall) : Sys :=
  { s with calls := s.calls + 1, log := s.log ++ [{ call := c, active := s.active }] }

def xTaskGetTickCount (K : Kernel) (s : Sys) : Nat × Sys :=
  let t := s.tick + K.elapse s.calls
  (t, ({ s with tick := t }).observe (.xTaskGetTickCount t))

def vTaskDelay (K : Kernel) (xTicksToDelay : Nat) (s : Sys) : Sys :=
  ({ s with tick := s.tick + K.elapse s.calls + xTicksToDelay }).observe (.vTaskDelay xTicksToDelay)

/-- The result is what the kernel stores through `pxCreatedTask`: `none` means
that creation failed and nothing is stored. -/
def xTaskCreate (K : Kernel) (pvTaskCode : TaskFunction_t) (pcName : String)
    (usStackDepth uxPriority : Nat) (s : Sys) : Option Nat × Sys :=
  let r := K.create s.calls
  (r, s.observe (.xTaskCreate pvTaskCode pcName usStackDepth uxPriority r))

def eTaskGetState (K : Kernel) (xTask : TaskHandle_t) (s : Sys) : eTaskState × Sys :=
  let r := K.state s.calls
  (r, s.observe (.eTaskGetState xTask r))

def vTaskDelete (xTask : TaskHandle_t) (s : Sys) : Sys :=
  s.observe (.vTaskDelete xTask)

/-! ## trace.c -/

/-- An argument of `sprintf`. -/
inductive FmtArg where
  | ulong (v : Nat)
  | str (s : String)

/-- A piece of a format string: literal text, or a conversion with its
`-` flag and minimum field width. -/
inductive FmtItem where
  | lit (t : String)
  | conv (leftAlign : Bool) (width : Nat)

def FmtArg.text : FmtArg → String
  | .ulong v => Nat.repr v
  | .str s => s

/-- Pad `body` with blanks to the minimum field width, which `sprintf` counts
in bytes. -/
def padField (leftAlign : Bool) (width : Nat) (body : String) : String :=
  let fill := String.mk (List.replicate (width - body.utf8ByteSize) ' ')
  if leftAlign then body ++ fill else fill ++ body

/-- The text `sprintf` stores for a format and its arguments. -/
def sprintf : List FmtItem → List FmtArg → String
  | [], _ => ""
  | .lit t :: fs, as => t ++ sprintf fs as
  | .conv l w :: fs, a :: as => padField l w a.text ++ sprintf fs as
  | .conv _ _ :: fs, [] => sprintf fs []

/-- The format `"[%5lu] %-10s: %s\r\n"`. -/
def traceFormat : List FmtItem :=
  [.lit "[", .conv false 5, .lit "] ", .conv true 10, .lit ": ", .conv false 0, .lit "\r\n"]

/-- The `switch` of `vTraceLog`, with `"UNKNOWN"` as the initial value. -/
def pcEventStr (xEvent : TraceEvent_t) : String :=
  if xEvent = TRACE_EVENT_MAJOR_FRAME_START then "MAJOR_FRAME_START"
  else if xEvent = TRACE_EVENT_TASK_SPAWN then "SPAWN"
  else if xEvent = TRACE_EVENT_TASK_COMPLETE then "COMPLETE"
  else if xEvent = TRACE_EVENT_DEADLINE_MISS then "DEADLINE_MISS"
  else if xEvent = TRACE_EVENT_TASK_CREATE_FAILED then "CREATE_FAILED"
  else if xEvent = TRACE_EVENT_IDLE_START then "IDLE_START"
  else if xEvent = TRACE_EVENT_IDLE_END then "IDLE_END"
  else "UNKNOWN"

def vTraceInit (K : Kernel) (s : Sys) : Sys :=
  let r := K.mutex s.calls
  { s.observe (.xSemaphoreCreateMutex r) with xTraceMutex := r }

/-- The call is logged; the line reaches the UART when the mutex is taken. -/
def vTraceLog (K : Kernel) (xEvent : TraceEvent_t) (pcTaskName : String) (xTick : Nat)
    (s : Sys) : Sys :=
  let s1 := s.observe (.vTraceLog xEvent pcTaskName xTick)
  if K.take s.calls = pdPASS then
    let cBuffer := sprintf traceFormat
      [.ulong (xTick % 2 ^ K.ulongBits), .str pcTaskName, .str (pcEventStr xEvent)]
    { s1 with uart := s1.uart ++ [cBuffer] }
  else s1

/-- The event text of each kind of the vocabulary of the trace sink, and
`UNKNOWN` for a value outside the enumeration. -/
def specEventText : TraceEvent_t → String
  | 0 => "MAJOR_FRAME_START"
  | 1 => "SPAWN"
  | 2 => "COMPLETE"
  | 3 => "DEADLINE_MISS"
  | 4 => "CREATE_FAILED"
  | 5 => "IDLE_START"
  | 6 => "IDLE_END"
  | _ => "UNKNOWN"

/-- The trace line as the interface describes it: the decimal tick
right-aligned in a field of width 5 between brackets, the name left-aligned
and padded with blanks to 10 bytes, the event text, CR LF. -/
def specTraceLine (xEvent : TraceEvent_t) (pcTaskName : String) (xTick : Nat) : String :=
  "[" ++ (String.mk (List.replicate (5 - (Nat.repr xTick).length) ' ') ++ Nat.repr xTick)
    ++ "] " ++ (pcTaskName ++ String.mk (List.replicate (10 - pcTaskName.utf8ByteSize) ' '))
    ++ ": " ++ specEventText xEvent ++ "\r\n"

/-! ## timeline_scheduler.c : initialisation -/

def setTask (s : Sys) (i : Nat) (f : ManagedTask_t → ManagedTask_t) : Sys :=
  { s with xManagedTasks := s.xManagedTasks.modify f i }

/-- The loop `for (i = 0; i < uxManagedTasksCount; i++)` of the initialiser;
`n` counts the iterations that remain. -/
def initLoop (tasks : List TimelineTaskConfig_t) : Nat → Nat → Sys → Sys
  | 0, _, s => s
  | n + 1, i, s =>
    initLoop tasks n (i + 1)
      (setTask s i (fun _ => { pxConfig := tasks[i]?, xHandle := none, xIsActive := pdFALSE }))

/-- The end of the initialiser: `vTraceInit()` and the creation of the
dispatcher task, with `&xSchedulerTaskHandle` as out-parameter. -/
def initWorker (K : Kernel) (s3 : Sys) : Sys :=
  let s4 := vTraceInit K s3
  let (r, s5) := xTaskCreate K .prvSchedulerTask "Scheduler"
                  (K.configMINIMAL_STACK_SIZE * 2) (K.tskIDLE_PRIORITY + 1) s4
  match r with
  | some h => { s5 with xSchedulerTaskHandle := some h }
  | none => s5

def xTimelineSchedulerInit (K : Kernel) (pxTimelineConfig : Option TimelineConfig_t)
    (s : Sys) : BaseType_t × Sys :=
  match pxTimelineConfig with
  | none => (pdFAIL, s)
  | some cfg =>
    match cfg.pxTasks with
    | none => (pdFAIL, s)
    | some tasks =>
      if cfg.uxNumTasks > MAX_TASKS then (pdFAIL, s)
      else
        let s1 := { s with xSchedulerConfig := cfg, uxManagedTasksCount := cfg.uxNumTasks }
        let s2 := { s1 with xManagedTasks :=
                      List.replicate MAX_TASKS { pxConfig := none, xHandle := none, xIsActive := 0 } }
        let s3 := initLoop tasks s2.uxManagedTasksCount 0 s2
        (pdPASS, initWorker K s3)

/-! ## timeline_scheduler.c : the dispatcher task -/

/-- The monitor loop `while (xManagedTasks[i].xIsActive)` of slot `i`.  The
first argument bounds the number of iterations; `none` is returned when the
bound is exhausted, when `i` is outside the table, or when a NULL `pxConfig`
is dereferenced. -/
def monitorLoop (K : Kernel) (i : Nat) (xDeadline : Nat) : Nat → Sys → Option Sys
  | 0, _ => none
  | fuel + 1, s =>
    match s.xManagedTasks[i]? with
    | none => none
    | some m =>
      if m.xIsActive = 0 then some s
      else
        match m.pxConfig with
        | none => none
        | some cfg =>
          let (st, s1) := eTaskGetState K m.xHandle s
          if st = .eDeleted then
            let s2 := setTask s1 i (fun m => { m with xIsActive := pdFALSE })
            let (t, s3) := xTaskGetTickCount K s2
            some (vTraceLog K TRACE_EVENT_TASK_COMPLETE cfg.pcName t s3)
          else
            let (now, s2) := xTaskGetTickCount K s1
            if now ≥ xDeadline then
              let s3 := vTaskDelete m.xHandle s2
              let s4 := setTask s3 i (fun m => { m with xIsActive := pdFALSE })
              let (t, s5) := xTaskGetTickCount K s4
              some (vTraceLog K TRACE_EVENT_DEADLINE_MISS cfg.pcName t s5)
            else
              monitorLoop K i xDeadline fuel (vTaskDelay K 1 s2)

/-- The wait for the start time of a HARD_RT slot with plan entry `cfg`; the
sum `xStartTime` is a `TickType_t` and wraps. -/
def hrtWait (K : Kernel) (xMajorFrameStartTick : Nat) (cfg : TimelineTaskConfig_t)
    (s : Sys) : Sys :=
  let (xCurrentTick, s1) := xTaskGetTickCount K s
  let xStartTime := (xMajorFrameStartTick + cfg.ulStartTimeTicks) % 2 ^ K.tickBits
  if xCurrentTick < xStartTime then vTaskDelay K (xStartTime - xCurrentTick) s1 else s1

/-- The `xTaskCreate` call of slot `i`, with `&xManagedTasks[i].xHandle` as
out-parameter; the value returned by `xTaskCreate` is not used. -/
def hrtSpawn (K : Kernel) (i : Nat) (cfg : TimelineTaskConfig_t) (s2 : Sys) : Sys :=
  let (r, s3) := xTaskCreate K cfg.pvTaskCode cfg.pcName K.configMINIMAL_STACK_SIZE
                  (K.tskIDLE_PRIORITY + 2) s2
  match r with
  | some h => setTask s3 i (fun m => { m with xHandle := some h })
  | none => s3

/-- What follows `xTaskCreate` in the body of the HRT loop: the test of the
handle, the log entry and the monitor loop; the sum `xDeadline` is a
`TickType_t` and wraps. -/
def hrtAfterCreate (K : Kernel) (fuel : Nat) (xMajorFrameStartTick : Nat) (i : Nat)
    (cfg : TimelineTaskConfig_t) (s3 : Sys) : Option Sys :=
  match s3.xManagedTasks[i]? with
  | none => none
  | some m3 =>
    if m3.xHandle = none then
      let (t, s4) := xTaskGetTickCount K s3
      some (vTraceLog K TRACE_EVENT_TASK_CREATE_FAILED cfg.pcName t s4)
    else
      let (t, s4) := xTaskGetTickCount K s3
      let s5 := vTraceLog K TRACE_EVENT_TASK_SPAWN cfg.pcName t s4
      let s6 := setTask s5 i (fun m => { m with xIsActive := pdTRUE })
      let xDeadline := (xMajorFrameStartTick + cfg.ulEndTimeTicks) % 2 ^ K.tickBits
      monitorLoop K i xDeadline fuel s6

/-- One iteration of the HRT loop `for (i = 0; i < uxManagedTasksCount; i++)`. -/
def hrtSlot (K : Kernel) (fuel : Nat) (xMajorFrameStartTick : Nat) (i : Nat)
    (s : Sys) : Option Sys :=
  match s.xManagedTasks[i]? with
  | none => none
  | some m =>
    match m.pxConfig with
    | none => none
    | some cfg =>
      if cfg.xTaskType = .TASK_TYPE_HARD_RT then
        hrtAfterCreate K fuel xMajorFrameStartTick i cfg
          (hrtSpawn K i cfg (hrtWait K xMajorFrameStartTick cfg s))
      else some s

/-- The HRT loop from index `i`, for `n` further iterations. -/
def hrtLoop (K : Kernel) (fuel : Nat) (xMajorFrameStartTick : Nat) :
    Nat → Nat → Sys → Option Sys
  | 0, _, s => some s
  | n + 1, i, s =>
    match hrtSlot K fuel xMajorFrameStartTick i s with
    | none => none
    | some s1 => hrtLoop K fuel xMajorFrameStartTick n (i + 1) s1

/-- The tail of a major frame, after the HRT loop; the sum
`xMajorFrameEndTick` is a `TickType_t` and wraps. -/
def frameTail (K : Kernel) (xMajorFrameStartTick : Nat) (s : Sys) : Sys :=
  let (t, s1) := xTaskGetTickCount K s
  let s2 := vTraceLog K TRACE_EVENT_IDLE_START "Scheduler" t s1
  let xMajorFrameEndTick :=
    (xMajorFrameStartTick + MAJOR_FRAME_DURATION_TICKS K) % 2 ^ K.tickBits
  let (xCurrentTick, s3) := xTaskGetTickCount K s2
  let s4 := if xCurrentTick < xMajorFrameEndTick
            then vTaskDelay K (xMajorFrameEndTick - xCurrentTick) s3 else s3
  let (t2, s5) := xTaskGetTickCount K s4
  vTraceLog K TRACE_EVENT_IDLE_END "Scheduler" t2 s5

/-- One pass through the body of `for (;;)` in `prvSchedulerTask`. -/
def majorFrame (K : Kernel) (fuel : Nat) (s : Sys) : Option Sys :=
  let (xMajorFrameStartTick, s1) := xTaskGetTickCount K s
  let s2 := vTraceLog K TRACE_EVENT_MAJOR_FRAME_START "Scheduler" xMajorFrameStartTick s1
  match hrtLoop K fuel xMajorFrameStartTick s2.uxManagedTasksCount 0 s2 with
  | none => none
  | some s3 => some (frameTail K xMajorFrameStartTick s3)

/-- The first `cycles` major frames of `prvSchedulerTask`. -/
def prvSchedulerTask (K : Kernel) (fuel : Nat) : Nat → Sys → Option Sys
  | 0, s => some s
  | cycles + 1, s =>
    match majorFrame K fuel s with
    | none => none
    | some s1 => prvSchedulerTask K fuel cycles s1

/-! ## Reading the log -/

/-- The trace: the `vTraceLog` calls of a log, in order, each with its event
kind, task name and tick argument. -/
def traceOf : List Obs → List (TraceEvent_t × String × Nat)
  | [] => []
  | o :: os =>
    match o.call with
    | .vTraceLog e n t => (e, n, t) :: traceOf os
    | _ => traceOf os

/-- The `xTaskCreate` calls of a log: task name and handle stored (`none` when
the creation failed). -/
def createsOf : List Obs → List (String × Option Nat)
  | [] => []
  | o :: os =>
    match o.call with
    | .xTaskCreate _ n _ _ r => (n, r) :: createsOf os
    | _ => createsOf os

/-- The handles passed to `vTaskDelete` in a log. -/
def killsOf : List Obs → List TaskHandle_t
  | [] => []
  | o :: os =>
    match o.call with
    | .vTaskDelete h => h :: killsOf os
    | _ => killsOf os

/-- The requested lengths of the `vTaskDelay` calls of a log. -/
def delaysOf : List Obs → List Nat
  | [] => []
  | o :: os =>
    match o.call with
    | .vTaskDelay n => n :: delaysOf os
    | _ => delaysOf os

/-- The `eTaskGetState` calls of a log: the handle queried and the state
reported. -/
def statesOf : List Obs → List (TaskHandle_t × eTaskState)
  | [] => []
  | o :: os =>
    match o.call with
    | .eTaskGetState h r => (h, r) :: statesOf os
    | _ => statesOf os

/-- The ticks logged with `MAJOR_FRAME_START`. -/
def frameStarts (l : List Obs) : List Nat :=
  (traceOf l).filterMap (fun r => if r.1 = TRACE_EVENT_MAJOR_FRAME_START then some r.2.2 else none)

/-! ## Predicates on the active flags -/

/-- No flag of the snapshot is set. -/
def Idle (a : List Bool) : Prop := ∀ b ∈ a, b = false

/-- No flag of the snapshot other than that of slot `i` is set. -/
def Only (i : Nat) (a : List Bool) : Prop := ∀ j, a[j]? = some true → j = i

instance (a : List Bool) : Decidable (Idle a) := by unfold Idle; infer_instance

/-- The clock advances only through delays, which last exactly as requested. -/
def ExactClock (K : Kernel) : Prop := ∀ k, K.elapse k = 0

end Demo

namespace Sched

/-! ## scheduler.h -/

inductive TaskType_t where
  | TASK_HARD_RT
  | TASK_SOFT_RT
  deriving DecidableEq

/-- A timeline entry; `function` identifies the C function to call. -/
structure TimelineTaskConfig_t where
  task_name : String
  function : Nat
  type : TaskType_t
  ulStart_time : Nat
  ulEnd_time : Nat
  ulSubframe_id : Nat
  deriving DecidableEq

/-! ## scheduler.c -/

def MAX_HRT_PER_SUBFRAME : Nat := 8
def MAX_SRT_PER_SUBFRAME : Nat := 8

/-- The per-sub-frame table.  An array cell holds the entry its pointer
designates, `none` for a NULL pointer. -/
structure SubframeSchedule_t where
  pxHrtTasks : List (Option TimelineTaskConfig_t)
  ucNumHrt : Nat
  pxSrtTasks : List (Option TimelineTaskConfig_t)
  ucNumSrt : Nat
  deriving DecidableEq

/-- A call made by the scheduler task: a read of the tick counter with its
result, or an in-line call of a task body. -/
inductive SCall where
  | xTaskGetTickCount (ret : Nat)
  | body (function : Nat)
  deriving DecidableEq

/-- The sub-frame tables, the kernel clock and the calls observed so far. -/
structure World where
  g_subframes : List SubframeSchedule_t
  tick : Nat
  calls : Nat
  log : List SCall

/-- Read the tick counter; `elapse k` ticks have passed since the previous
call when this is call number `k`.  The counter does not wrap. -/
def xTaskGetTickCount (elapse : Nat → Nat) (w : World) : Nat × World :=
  let t := w.tick + elapse w.calls
  (t, { w with tick := t, calls := w.calls + 1, log := w.log ++ [.xTaskGetTickCount t] })

/-- The call `cfg->function(NULL)`. -/
def callBody (cfg : TimelineTaskConfig_t) (w : World) : World :=
  { w with calls := w.calls + 1, log := w.log ++ [.body cfg.function] }

/-- The loop of `prvRunSrtTasks` from index `i`, with `n` iterations left.
`none`: a read outside the array or a call through a NULL pointer. -/
def srtLoop (elapse : Nat → Nat) (sf : SubframeSchedule_t) (xSubEnd : Nat) :
    Nat → Nat → World → Option World
  | 0, _, w => some w
  | n + 1, i, w =>
    match sf.pxSrtTasks[i]? with
    | none => none
    | some cfg =>
      let (now, w1) := xTaskGetTickCount elapse w
      if now ≥ xSubEnd then some w1
      else
        match cfg with
        | none => none
        | some c => srtLoop elapse sf xSubEnd n (i + 1) (callBody c w1)

def prvRunSrtTasks (elapse : Nat → Nat) (sfIdx : Nat) (_xSubStart xSubEnd : Nat)
    (w : World) : Option World :=
  match w.g_subframes[sfIdx]? with
  | none => none
  | some sf => srtLoop elapse sf xSubEnd sf.ucNumSrt 0 w

/-- The calls made while the bodies of `cs` run one after the other, the read
that precedes each body returning the matching tick of `ts`; the shorter list
decides where the sequence ends. -/
def srtCalls : List Nat → List TimelineTaskConfig_t → List SCall
  | t :: ts, c :: cs => .xTaskGetTickCount t :: .body c.function :: srtCalls ts cs
  | _, _ => []

/-- The task bodies called in a log, in order. -/
def bodiesOf : List SCall → List Nat
  | [] => []
  | .body f :: cs => f :: bodiesOf cs
  | .xTaskGetTickCount _ :: cs => bodiesOf cs

/-! ## scheduler.c : configuration -/

/-- The global configuration of `scheduler.h`; `tasks` is the array that the
pointer designates and `ulNumTasks` the separate element count. -/
structure TimelineConfig_t where
  ulMajorFrameLength : Nat
  ulNumSubframes : Nat
  ulSubframeLength : Nat
  tasks : List TimelineTaskConfig_t
  ulNumTasks : Nat
  deriving DecidableEq

/-- The file-scope variables `g_cfg` and `xSchedulerHandle` of `scheduler.c`,
with the world that holds `g_subframes`. -/
structure Scheduler where
  g_cfg : TimelineConfig_t
  xSchedulerHandle : Option Nat
  world : World

/-- A sub-frame table after `memset(.., 0, ..)`: NULL cells, counters 0. -/
def zeroSubframe : SubframeSchedule_t :=
  { pxHrtTasks := List.replicate MAX_HRT_PER_SUBFRAME none
    ucNumHrt := 0
    pxSrtTasks := List.replicate MAX_SRT_PER_SUBFRAME none
    ucNumSrt := 0 }

/-- The body of the sorting loop for entry `t`: `sf = &g_subframes[t->ulSubframe_id]`
and the store `sf->pxHrtTasks[sf->ucNumHrt++] = t` or
`sf->pxSrtTasks[sf->ucNumSrt++] = t`; the counters are `uint8_t`.
`none`: the sub-frame index or the array index is out of bounds. -/
def placeTask (t : TimelineTaskConfig_t) (subs : List SubframeSchedule_t) :
    Option (List SubframeSchedule_t) :=
  match subs[t.ulSubframe_id]? with
  | none => none
  | some sf =>
    if t.type = .TASK_HARD_RT then
      if sf.ucNumHrt < sf.pxHrtTasks.length then
        some (subs.set t.ulSubframe_id
          { sf with pxHrtTasks := sf.pxHrtTasks.set sf.ucNumHrt (some t),
                    ucNumHrt := (sf.ucNumHrt + 1) % 256 })
      else none
    else
      if sf.ucNumSrt < sf.pxSrtTasks.length then
        some (subs.set t.ulSubframe_id
          { sf with pxSrtTasks := sf.pxSrtTasks.set sf.ucNumSrt (some t),
                    ucNumSrt := (sf.ucNumSrt + 1) % 256 })
      else none

/-- The loop `for (i = 0; i < g_cfg.ulNumTasks; i++)` of `vConfigureScheduler`
from index `i`, with `n` iterations left.  `none`: a read beyond the task
array, or an out-of-bounds store in `placeTask`. -/
def configureLoop (g_cfg : TimelineConfig_t) :
    Nat → Nat → List SubframeSchedule_t → Option (List SubframeSchedule_t)
  | 0, _, subs => some subs
  | n + 1, i, subs =>
    match g_cfg.tasks[i]? with
    | none => none
    | some t =>
      match placeTask t subs with
      | none => none
      | some subs1 => configureLoop g_cfg n (i + 1) subs1

/-- The function `vConfigureScheduler`.  `mallocOk` tells whether `pvPortMalloc`
returns a block (`configASSERT` stops the program otherwise: `none`), `created`
is what `xTaskCreate` stores through `&xSchedulerHandle` (`none`: nothing).
The size computation of the allocation is taken not to wrap. -/
def vConfigureScheduler (mallocOk : Bool) (created : Option Nat) (pxCfg : TimelineConfig_t)
    (st : Scheduler) : Option Scheduler :=
  let g_cfg := pxCfg
  if mallocOk = false then none
  else
    let g_subframes := List.replicate g_cfg.ulNumSubframes zeroSubframe
    match configureLoop g_cfg g_cfg.ulNumTasks 0 g_subframes with
    | none => none
    | some subs =>
      some { g_cfg := g_cfg
             xSchedulerHandle := match created with
               | some h => some h
               | none => st.xSchedulerHandle
             world := { st.world with g_subframes := subs } }

/-! ## scheduler.c : the HRT phase -/

/-- The call `taskYIELD()`: other tasks run while `elapse k` ticks pass, when
this is call number `k`; nothing is logged. -/
def taskYIELD (elapse : Nat → Nat) (w : World) : World :=
  { w with tick := w.tick + elapse w.calls, calls := w.calls + 1 }

/-- The loop `while (xTaskGetTickCount() < xStart) taskYIELD();`.  The first
argument bounds the number of reads; `none` when the bound is exhausted. -/
def waitStart (elapse : Nat → Nat) (xStart : Nat) : Nat → World → Option World
  | 0, _ => none
  | fuel + 1, w =>
    let (now, w1) := xTaskGetTickCount elapse w
    if now < xStart then waitStart elapse xStart fuel (taskYIELD elapse w1) else some w1

/-- The loop of `prvRunHrtTasks` from index `i`, with `n` iterations left;
`tickBits` is the width of `TickType_t`, in which the sums `xStart` and
`xDeadline` are computed and wrap.  `none`: a read outside the array, a NULL
entry, or an exhausted wait. -/
def runHrtLoop (elapse : Nat → Nat) (tickBits : Nat) (fuel : Nat) (sf : SubframeSchedule_t)
    (xSubStart : Nat) : Nat → Nat → World → Option World
  | 0, _, w => some w
  | n + 1, i, w =>
    match sf.pxHrtTasks[i]? with
    | none => none
    | some none => none
    | some (some cfg) =>
      let xStart := (xSubStart + cfg.ulStart_time) % 2 ^ tickBits
      let xDeadline := (xSubStart + cfg.ulEnd_time) % 2 ^ tickBits
      match waitStart elapse xStart fuel w with
      | none => none
      | some w1 =>
        let (_before, w2) := xTaskGetTickCount elapse w1
        let w3 := callBody cfg w2
        let (after, w4) := xTaskGetTickCount elapse w3
        let w5 := if after > xDeadline then w4 else w4
        runHrtLoop elapse tickBits fuel sf xSubStart n (i + 1) w5

def prvRunHrtTasks (elapse : Nat → Nat) (tickBits : Nat) (fuel : Nat) (sfIdx : Nat)
    (xSubStart : Nat) (w : World) : Option World :=
  match w.g_subframes[sfIdx]? with
  | none => none
  | some sf => runHrtLoop elapse tickBits fuel sf xSubStart sf.ucNumHrt 0 w

/-! ## The sub-frame lists as the configuration describes them -/

/-- The configured entries: the first `ulNumTasks` elements of the array. -/
def TimelineConfig_t.specs (cfg : TimelineConfig_t) : List TimelineTaskConfig_t :=
  cfg.tasks.take cfg.ulNumTasks

/-- The HARD_RT entries of `l` assigned to sub-frame `s`, in the order of `l`. -/
def hrtOf (l : List TimelineTaskConfig_t) (s : Nat) : List TimelineTaskConfig_t :=
  l.filter (fun t => decide (t.type = .TASK_HARD_RT) && decide (t.ulSubframe_id = s))

/-- The other entries of `l` assigned to sub-frame `s`, in the order of `l`. -/
def srtOf (l : List TimelineTaskConfig_t) (s : Nat) : List TimelineTaskConfig_t :=
  l.filter (fun t => !decide (t.type = .TASK_HARD_RT) && decide (t.ulSubframe_id = s))

/-- An array of `size` cells whose first cells designate the entries of `l`
and whose other cells are NULL. -/
def cellsOf (size : Nat) (l : List TimelineTaskConfig_t) : List (Option TimelineTaskConfig_t) :=
  l.map some ++ List.replicate (size - l.length) none

/-- The table of sub-frame `s` when the entries of `l` have been sorted. -/
def bucketOf (l : List TimelineTaskConfig_t) (s : Nat) : SubframeSchedule_t :=
  { pxHrtTasks := cellsOf MAX_HRT_PER_SUBFRAME (hrtOf l s)
    ucNumHrt := (hrtOf l s).length
    pxSrtTasks := cellsOf MAX_SRT_PER_SUBFRAME (srtOf l s)
    ucNumSrt := (srtOf l s).length }

/-- The ticks read during one activation: the reads of the wait loop that
return a tick before the start, the read that ends the wait, and the reads
before and after the body. -/
structure Reads where
  waits : List Nat
  exit : Nat
  before : Nat
  after : Nat

/-- The calls of the HRT phase when the entries of `cs` are activated one after
the other with the reads of `rs`; the shorter list decides where it ends.
`taskYIELD` is not logged. -/
def hrtCalls : List Reads → List TimelineTaskConfig_t → List SCall
  | r :: rs, c :: cs =>
    r.waits.map SCall.xTaskGetTickCount ++
      [.xTaskGetTickCount r.exit, .xTaskGetTickCount r.before, .body c.function,
        .xTaskGetTickCount r.after] ++ hrtCalls rs cs
  | _, _ => []

end Sched

/-! ## Concrete kernels and plans used to evaluate the model -/

namespace Demo

/-- A kernel with a 1 kHz tick whose clock moves only through delays, where
every creation succeeds and the worker is seen deleted from call `done` on. -/
def exactKernel (done : Nat) : Kernel where
  configTICK_RATE_HZ := 1000
  configMINIMAL_STACK_SIZE := 128
  tskIDLE_PRIORITY := 0
  tickBits := 32
  ulongBits := 32
  elapse := fun _ => 0
  create := fun k => some k
  state := fun k => if done ≤ k then eTaskState.eDeleted else eTaskState.eRunning
  mutex := fun _ => some 1
  take := fun _ => pdPASS

/-- A HARD_RT entry `A` with start offset 0 and deadline offset 10. -/
def oneEntry : TimelineTaskConfig_t :=
  { pvTaskCode := .app 1, pcName := "A", xTaskType := .TASK_TYPE_HARD_RT,
    ulStartTimeTicks := 0, ulEndTimeTicks := 10, ulSubframeId := 0 }

/-- The plan that holds `oneEntry` alone. -/
def onePlan : TimelineConfig_t := { pxTasks := some [oneEntry], uxNumTasks := 1 }

/-- The state after the initialisation with `onePlan` under `exactKernel 0`. -/
def oneState : Sys := (xTimelineSchedulerInit (exactKernel 0) (some onePlan) Sys.boot).2

/-- The state `oneState` after the wait and the `xTaskCreate` call of slot 0 in
a frame that starts at tick 0. -/
def oneSpawned : Sys :=
  hrtSpawn (exactKernel 0) 0 oneEntry (hrtWait (exactKernel 0) 0 oneEntry oneState)

/-- A HARD_RT entry whose deadline offset (5) is below its start offset (10). -/
def invertedEntry : TimelineTaskConfig_t :=
  { pvTaskCode := .app 1, pcName := "A", xTaskType := .TASK_TYPE_HARD_RT,
    ulStartTimeTicks := 10, ulEndTimeTicks := 5, ulSubframeId := 0 }

/-- The plan that holds `invertedEntry` alone. -/
def invertedPlan : TimelineConfig_t := { pxTasks := some [invertedEntry], uxNumTasks := 1 }

/-- The state after the initialisation with `invertedPlan` under `exactKernel 0`. -/
def invertedState : Sys :=
  (xTimelineSchedulerInit (exactKernel 0) (some invertedPlan) Sys.boot).2

/-- A plan with one HARD_RT entry whose deadline offset (15) lies beyond the
major frame of ten ticks of `slowTickKernel`. -/
def longPlan : TimelineConfig_t :=
  { pxTasks := some [{ pvTaskCode := .app 1, pcName := "A", xTaskType := .TASK_TYPE_HARD_RT,
                       ulStartTimeTicks := 0, ulEndTimeTicks := 15, ulSubframeId := 0 }]
    uxNumTasks := 1 }

/-- The worker keeps the processor for 50 ticks before the dispatcher reads
the tick for its TASK_COMPLETE entry (call 9 of the run), and is then reported
deleted; the clock is exact otherwise. -/
def busyWorkerKernel : Kernel :=
  { exactKernel 0 with elapse := fun k => if k = 9 then 50 else 0 }

/-- Creation succeeds up to call 9 of the run and fails afterwards without
storing a handle; workers are always reported deleted. -/
def failLaterKernel : Kernel :=
  { exactKernel 0 with create := fun k => if k < 10 then some k else none }

/-- A 100 Hz tick (major frame of 10 ticks), an exact clock, and workers that
are never reported deleted within the run. -/
def slowTickKernel : Kernel :=
  { exactKernel 1000000 with configTICK_RATE_HZ := 100 }

/-- The state `oneState` reached when the tick counter stands at
`2 ^ 32 - 6 = 4294967290`. -/
def lateState : Sys := { oneState with tick := 4294967290 }

/-- Every delay lasts exactly as requested and workers are reported deleted at
once; one tick passes before call 17 of the run, which is the read of the tick
counter that opens the second major frame of `onePlan`. -/
def lateReadKernel : Kernel :=
  { exactKernel 0 with elapse := fun k => if k = 17 then 1 else 0 }

end Demo

namespace Sched

/-- Two SOFT_RT entries of one sub-frame. -/
def twoSrt : List TimelineTaskConfig_t :=
  [{ task_name := "Logging", function := 3, type := .TASK_SOFT_RT,
     ulStart_time := 0, ulEnd_time := 25, ulSubframe_id := 0 },
   { task_name := "Diagnostics", function := 4, type := .TASK_SOFT_RT,
     ulStart_time := 0, ulEnd_time := 25, ulSubframe_id := 0 }]

/-- A world with one sub-frame that holds the entries of `twoSrt`. -/
def twoSrtWorld : World :=
  { g_subframes :=
      [{ pxHrtTasks := List.replicate MAX_HRT_PER_SUBFRAME none
         ucNumHrt := 0
         pxSrtTasks := twoSrt.map some ++ List.replicate 6 none
         ucNumSrt := 2 }]
    tick := 0
    calls := 0
    log := [] }

/-- The state of `scheduler.c` at program start. -/
def bootScheduler : Scheduler :=
  { g_cfg := { ulMajorFrameLength := 0, ulNumSubframes := 0, ulSubframeLength := 0,
               tasks := [], ulNumTasks := 0 }
    xSchedulerHandle := none
    world := { g_subframes := [], tick := 0, calls := 0, log := [] } }

/-- The table of `timeline_config.c`: major frame 100, four sub-frames of 25. -/
def g_timelineConfig : TimelineConfig_t :=
  { ulMajorFrameLength := 100
    ulNumSubframes := 4
    ulSubframeLength := 25
    tasks :=
      [{ task_name := "ReadSensor", function := 1, type := .TASK_HARD_RT,
         ulStart_time := 0, ulEnd_time := 10, ulSubframe_id := 0 },
       { task_name := "ControlLoop", function := 2, type := .TASK_HARD_RT,
         ulStart_time := 10, ulEnd_time := 20, ulSubframe_id := 0 },
       { task_name := "Logging", function := 3, type := .TASK_SOFT_RT,
         ulStart_time := 0, ulEnd_time := 25, ulSubframe_id := 0 },
       { task_name := "ReadSensor", function := 1, type := .TASK_HARD_RT,
         ulStart_time := 0, ulEnd_time := 10, ulSubframe_id := 1 },
       { task_name := "Diagnostics", function := 4, type := .TASK_SOFT_RT,
         ulStart_time := 0, ulEnd_time := 25, ulSubframe_id := 1 }]
    ulNumTasks := 5 }

/-- A table that lists `ControlLoop` (start offset 10) before `ReadSensor`
(start offset 0) in sub-frame 0. -/
def swappedConfig : TimelineConfig_t :=
  { ulMajorFrameLength := 100
    ulNumSubframes := 4
    ulSubframeLength := 25
    tasks :=
      [{ task_name := "ControlLoop", function := 2, type := .TASK_HARD_RT,
         ulStart_time := 10, ulEnd_time := 20, ulSubframe_id := 0 },
       { task_name := "ReadSensor", function := 1, type := .TASK_HARD_RT,
         ulStart_time := 0, ulEnd_time := 10, ulSubframe_id := 0 }]
    ulNumTasks := 2 }

end Sched

/-! # Theorems -/

namespace Demo

/-- C1. When the plan pointer is NULL, its task array is NULL or `uxNumTasks`
exceeds `MAX_TASKS`, `xTimelineSchedulerInit` returns `pdFAIL` and the whole
state is unchanged: plan copy, managed-task table and count, dispatcher
handle, trace mutex, and the log of kernel calls (no mutex and no task was
created). -/
theorem xTimelineSchedulerInit_reject_no_effect (K : Kernel) (p : Option TimelineConfig_t)
    (s : Sys)
    (h : p = none ∨ (∃ c, p = some c ∧ c.pxTasks = none) ∨
      (∃ c, p = some c ∧ c.uxNumTasks > MAX_TASKS)) :
    xTimelineSchedulerInit K p s = (pdFAIL, s) := by
  rcases h with h | ⟨c, hp, hc⟩ | ⟨c, hp, hc⟩
  · subst h; rfl
  · subst hp; simp [xTimelineSchedulerInit, hc]
  · subst hp
    cases hts : c.pxTasks with
    | none => simp [xTimelineSchedulerInit, hts]
    | some tasks => simp [xTimelineSchedulerInit, hts, hc]

/-- A plan that announces 17 tasks is rejected and leaves the boot state as
it was. -/
theorem xTimelineSchedulerInit_reject_no_effect_witness :
    xTimelineSchedulerInit (exactKernel 0) (some { pxTasks := some [], uxNumTasks := 17 }) Sys.boot
      = (pdFAIL, Sys.boot) :=
  xTimelineSchedulerInit_reject_no_effect (exactKernel 0)
    (some { pxTasks := some [], uxNumTasks := 17 }) Sys.boot
    (Or.inr (Or.inr ⟨_, rfl, by decide⟩))

/-- C2, counterexample. A plan with a HARD_RT entry whose deadline offset (5)
is below its start offset (10) is accepted by `xTimelineSchedulerInit`. -/
theorem xTimelineSchedulerInit_accepts_inverted_deadline :
    (∃ tasks c, invertedPlan.pxTasks = some tasks ∧ c ∈ tasks ∧
        c.xTaskType = .TASK_TYPE_HARD_RT ∧ c.ulEndTimeTicks ≤ c.ulStartTimeTicks) ∧
      (xTimelineSchedulerInit (exactKernel 0) (some invertedPlan) Sys.boot).1 = pdPASS ∧
      (xTimelineSchedulerInit (exactKernel 0) (some invertedPlan) Sys.boot).1 ≠ pdFAIL := by
  refine ⟨⟨_, _, rfl, List.mem_singleton.mpr rfl, rfl, by decide⟩, ?_, ?_⟩
  · rfl
  · decide

/-- C2, amended. `xTimelineSchedulerInit` returns `pdFAIL` exactly when the
plan pointer is NULL, the task array is NULL or `uxNumTasks > MAX_TASKS`, and
`pdPASS` otherwise; the start and deadline offsets of the entries play no part
in the result. -/
theorem xTimelineSchedulerInit_fail_iff (K : Kernel) (p : Option TimelineConfig_t) (s : Sys) :
    ((xTimelineSchedulerInit K p s).1 = pdFAIL ↔
        (p = none ∨ (∃ c, p = some c ∧ c.pxTasks = none) ∨
          (∃ c, p = some c ∧ c.uxNumTasks > MAX_TASKS))) ∧
      ((xTimelineSchedulerInit K p s).1 ≠ pdFAIL → (xTimelineSchedulerInit K p s).1 = pdPASS) := by
  unfold xTimelineSchedulerInit
  cases p with
  | none => simp
  | some c =>
    cases hts : c.pxTasks with
    | none => simp [hts]
    | some tasks =>
      by_cases hn : c.uxNumTasks > MAX_TASKS
      · simp [hts, hn]
      · simp [hts, hn]

/-! ## The trace sink -/

theorem pcEventStr_eq : ∀ (e : TraceEvent_t), pcEventStr e = specEventText e
  | 0 => rfl
  | 1 => rfl
  | 2 => rfl
  | 3 => rfl
  | 4 => rfl
  | 5 => rfl
  | 6 => rfl
  | n + 7 => by
    simp [pcEventStr, specEventText, TRACE_EVENT_MAJOR_FRAME_START, TRACE_EVENT_TASK_SPAWN,
      TRACE_EVENT_TASK_COMPLETE, TRACE_EVENT_DEADLINE_MISS, TRACE_EVENT_TASK_CREATE_FAILED,
      TRACE_EVENT_IDLE_START, TRACE_EVENT_IDLE_END]

theorem specEventText_bytes_le (e : TraceEvent_t) : (specEventText e).utf8ByteSize ≤ 17 := by
  unfold specEventText
  split <;> decide

theorem digitChar_utf8Size (d : Nat) (h : d < 10) : (Nat.digitChar d).utf8Size = 1 := by
  interval_cases d <;> rfl

theorem toDigitsCore_utf8Size : ∀ (f n : Nat) (ds : List Char),
    (∀ c ∈ ds, c.utf8Size = 1) → ∀ c ∈ Nat.toDigitsCore 10 f n ds, c.utf8Size = 1
  | 0, _, ds, h => by simpa [Nat.toDigitsCore] using h
  | f + 1, n, ds, h => by
    have hd : ∀ c ∈ Nat.digitChar (n % 10) :: ds, c.utf8Size = 1 := by
      intro c hc
      rcases List.mem_cons.mp hc with h1 | h1
      · rw [h1]; exact digitChar_utf8Size _ (Nat.mod_lt _ (by decide))
      · exact h c h1
    simp only [Nat.toDigitsCore]
    split
    · exact hd
    · exact toDigitsCore_utf8Size f (n / 10) _ hd

theorem utf8Len_eq_length : ∀ (l : List Char), (∀ c ∈ l, c.utf8Size = 1) →
    String.utf8Len l = l.length
  | [], _ => rfl
  | c :: cs, h => by
    simp [String.utf8Len_cons, h c (List.mem_cons_self _ _),
      utf8Len_eq_length cs (fun x hx => h x (List.mem_cons_of_mem _ hx))]

theorem repr_utf8ByteSize (n : Nat) : (Nat.repr n).utf8ByteSize = (Nat.repr n).length := by
  have h := toDigitsCore_utf8Size (n + 1) n [] (by simp)
  simp only [Nat.repr, Nat.toDigits, List.asString, String.utf8ByteSize_mk, String.length]
  exact utf8Len_eq_length _ h

theorem utf8ByteSize_append (a b : String) :
    (a ++ b).utf8ByteSize = a.utf8ByteSize + b.utf8ByteSize := by
  cases a with
  | mk x =>
    cases b with
    | mk y => exact String.utf8Len_append x y

theorem utf8ByteSize_blanks (n : Nat) :
    (String.mk (List.replicate n ' ')).utf8ByteSize = n := by
  rw [String.utf8ByteSize_mk, utf8Len_eq_length]
  · simp
  · intro c hc
    rw [(List.mem_replicate.mp hc).2]; rfl

/-- C9. When the trace mutex is taken, `vTraceLog` appends to the UART exactly
one line, equal to `"[" ++` the decimal tick right-aligned in width 5 `++ "] " ++`
the name left-aligned and padded with blanks to 10 bytes `++ ": " ++` the event
text of the kind `++ "\r\n"`, for every event value, every name of at most 16
bytes and every tick that an `unsigned long` of at most 64 bits holds; the line
is shorter than the 100-byte buffer.  The event texts are MAJOR_FRAME_START,
SPAWN, COMPLETE, DEADLINE_MISS, CREATE_FAILED, IDLE_START and IDLE_END for the
seven kinds, and UNKNOWN for any other value. -/
theorem vTraceLog_line (K : Kernel) (xEvent : TraceEvent_t) (pcTaskName : String)
    (xTick : Nat) (s : Sys)
    (hbits : K.ulongBits ≤ 64) (htick : xTick < 2 ^ K.ulongBits)
    (hname : pcTaskName.utf8ByteSize ≤ 16) (htake : K.take s.calls = pdPASS) :
    (vTraceLog K xEvent pcTaskName xTick s).uart
        = s.uart ++ [specTraceLine xEvent pcTaskName xTick] ∧
      (specTraceLine xEvent pcTaskName xTick).utf8ByteSize < 100 := by
  have hmod : xTick % 2 ^ K.ulongBits = xTick := Nat.mod_eq_of_lt htick
  have hlt : xTick < 10 ^ 20 := by
    have h1 : 2 ^ K.ulongBits ≤ 2 ^ 64 := Nat.pow_le_pow_right (by norm_num) hbits
    exact lt_of_lt_of_le htick (le_trans h1 (by norm_num))
  have hd : (Nat.repr xTick).length ≤ 20 := Nat.repr_length xTick 20 (by norm_num) hlt
  have he := specEventText_bytes_le xEvent
  constructor
  · simp [vTraceLog, htake, Sys.observe, sprintf, traceFormat, padField, FmtArg.text, hmod,
      String.append_assoc, specTraceLine, pcEventStr_eq, repr_utf8ByteSize]
  · simp only [specTraceLine, utf8ByteSize_append, utf8ByteSize_blanks, repr_utf8ByteSize]
    have h1 : "[".utf8ByteSize = 1 := by decide
    have h2 : "] ".utf8ByteSize = 2 := by decide
    have h3 : ": ".utf8ByteSize = 2 := by decide
    have h4 : "\r\n".utf8ByteSize = 2 := by decide
    omega

/-- The line for DEADLINE_MISS of `HRT2` at tick 80, logged in the state left
by the initialiser. -/
theorem vTraceLog_line_witness :
    (vTraceLog (exactKernel 0) TRACE_EVENT_DEADLINE_MISS "HRT2" 80 oneState).uart
        = oneState.uart ++ ["[   80] HRT2      : DEADLINE_MISS\r\n"] ∧
      ("[   80] HRT2      : DEADLINE_MISS\r\n").utf8ByteSize < 100 := by
  have h := vTraceLog_line (exactKernel 0) TRACE_EVENT_DEADLINE_MISS "HRT2" 80 oneState
    (by decide) (by decide) (by decide) rfl
  have e : specTraceLine TRACE_EVENT_DEADLINE_MISS "HRT2" 80
      = "[   80] HRT2      : DEADLINE_MISS\r\n" := by decide
  rw [e] at h
  exact h

/-- C10, counterexample. The enumeration has seven kinds, none of them named
`SUBFRAME_START`, and the text written for `TRACE_EVENT_TASK_SPAWN` is `SPAWN`,
not the name of the kind. -/
theorem trace_vocabulary_differs :
    (¬ ∃ e ∈ TraceEvent_enumerators, e.2 = "SUBFRAME_START") ∧
      TraceEvent_enumerators.length = 7 ∧
      pcEventStr TRACE_EVENT_TASK_SPAWN = "SPAWN" ∧
      pcEventStr TRACE_EVENT_TASK_SPAWN ≠ "TASK_SPAWN" := by
  decide

/-- C10, amended. The event kinds are the seven enumerators with values 0 to 6
(MAJOR_FRAME_START, TASK_SPAWN, TASK_COMPLETE, DEADLINE_MISS,
TASK_CREATE_FAILED, IDLE_START, IDLE_END); `vTraceLog` writes
MAJOR_FRAME_START, DEADLINE_MISS, IDLE_START and IDLE_END under their own
names and TASK_SPAWN, TASK_COMPLETE, TASK_CREATE_FAILED as `SPAWN`, `COMPLETE`,
`CREATE_FAILED`; the seven texts are pairwise distinct and none is `UNKNOWN`. -/
theorem trace_vocabulary :
    TraceEvent_enumerators.map (fun e => e.1) = List.range 7 ∧
      TraceEvent_enumerators.map (fun e => (e.2, pcEventStr e.1)) =
        [ ("MAJOR_FRAME_START", "MAJOR_FRAME_START"), ("TASK_SPAWN", "SPAWN"),
          ("TASK_COMPLETE", "COMPLETE"), ("DEADLINE_MISS", "DEADLINE_MISS"),
          ("TASK_CREATE_FAILED", "CREATE_FAILED"), ("IDLE_START", "IDLE_START"),
          ("IDLE_END", "IDLE_END") ] ∧
      (TraceEvent_enumerators.map (fun e => pcEventStr e.1)).Nodup ∧
      (∀ e ∈ TraceEvent_enumerators, pcEventStr e.1 ≠ "UNKNOWN") := by
  decide

end Demo

namespace Sched

/-! ## The SRT phase of `scheduler.c` -/

theorem bodiesOf_append (a b : List SCall) : bodiesOf (a ++ b) = bodiesOf a ++ bodiesOf b := by
  induction a with
  | nil => rfl
  | cons c cs ih => cases c <;> simp [bodiesOf, ih]

theorem bodiesOf_srtCalls : ∀ (ts : List Nat) (cs : List TimelineTaskConfig_t),
    ts.length ≤ cs.length → bodiesOf (srtCalls ts cs) = (cs.take ts.length).map (fun c => c.function)
  | [], _, _ => by simp [srtCalls, bodiesOf]
  | _ :: _, [], h => by simp at h
  | t :: ts, c :: cs, h => by
    simp [srtCalls, bodiesOf, bodiesOf_srtCalls ts cs (by simpa using h)]

theorem srtLoop_spec (elapse : Nat → Nat) (sf : SubframeSchedule_t) (xSubEnd : Nat) :
    ∀ (srt : List TimelineTaskConfig_t) (i : Nat) (w : World),
      (∀ j (h : j < srt.length), sf.pxSrtTasks[i + j]? = some (some srt[j])) →
      ∃ w1 ticks stop, srtLoop elapse sf xSubEnd srt.length i w = some w1 ∧
        ticks.length ≤ srt.length ∧
        w1.log = w.log ++ srtCalls ticks srt ++ stop ∧
        w1.g_subframes = w.g_subframes ∧
        (∀ t ∈ ticks, t < xSubEnd) ∧
        ((ticks.length = srt.length ∧ stop = []) ∨
          (ticks.length < srt.length ∧ ∃ t, xSubEnd ≤ t ∧ stop = [.xTaskGetTickCount t])) := by
  intro srt
  induction srt with
  | nil =>
    intro i w _
    exact ⟨w, [], [], rfl, le_refl _, by simp [srtCalls], rfl, by simp, Or.inl ⟨rfl, rfl⟩⟩
  | cons c rest ih =>
    intro i w hcells
    have h0 : sf.pxSrtTasks[i]? = some (some c) := by
      simpa using hcells 0 (by simp)
    by_cases hstop : xSubEnd ≤ w.tick + elapse w.calls
    · refine ⟨(xTaskGetTickCount elapse w).2, [], [.xTaskGetTickCount (w.tick + elapse w.calls)],
        ?_, by simp, ?_, rfl, by simp, Or.inr ⟨by simp, _, hstop, rfl⟩⟩
      · simp [srtLoop, h0, xTaskGetTickCount, hstop]
      · simp [xTaskGetTickCount, srtCalls]
    · have hrest : ∀ j (h : j < rest.length), sf.pxSrtTasks[i + 1 + j]? = some (some rest[j]) := by
        intro j hj
        have := hcells (j + 1) (by simpa using hj)
        simpa [Nat.add_assoc, Nat.add_comm 1 j] using this
      obtain ⟨w1, ticks, stop, hrun, hlen, hlog, hsub, hlt, hend⟩ :=
        ih (i + 1) (callBody c (xTaskGetTickCount elapse w).2) hrest
      refine ⟨w1, (w.tick + elapse w.calls) :: ticks, stop, ?_, by simpa using hlen, ?_, ?_, ?_, ?_⟩
      · simp only [List.length_cons, srtLoop, h0]
        simp only [xTaskGetTickCount] at hrun ⊢
        simp [hstop, hrun]
      · rw [hlog]
        simp [callBody, xTaskGetTickCount, srtCalls]
      · rw [hsub]; rfl
      · intro t ht
        rcases List.mem_cons.mp ht with h | h
        · subst h; omega
        · exact hlt t h
      · rcases hend with ⟨h1, h2⟩ | ⟨h1, h2⟩
        · exact Or.inl ⟨by simp [h1], h2⟩
        · exact Or.inr ⟨by simpa using h1, h2⟩

/-- C8. Let the first `ucNumSrt` cells of the SRT array of sub-frame `sfIdx`
designate the entries `srt`.  For every clock, `prvRunSrtTasks` returns, and
the calls it makes are: for the first `k` entries of `srt`, in configured
order, one read of the tick counter that returns a tick below `xSubEnd`
followed by the in-line call of the body; then, when `k` is less than the
number of entries, one more read that returns a tick at or beyond `xSubEnd`,
after which nothing is called.  The bodies called are thus the first `k`
entries of the list. -/
theorem prvRunSrtTasks_calls (elapse : Nat → Nat) (sfIdx xSubStart xSubEnd : Nat) (w : World)
    (sf : SubframeSchedule_t) (srt : List TimelineTaskConfig_t)
    (hsf : w.g_subframes[sfIdx]? = some sf) (hnum : sf.ucNumSrt = srt.length)
    (hcells : ∀ j (h : j < srt.length), sf.pxSrtTasks[j]? = some (some srt[j])) :
    ∃ w1 ticks stop,
      prvRunSrtTasks elapse sfIdx xSubStart xSubEnd w = some w1 ∧
      ticks.length ≤ srt.length ∧
      w1.log = w.log ++ srtCalls ticks srt ++ stop ∧
      bodiesOf (srtCalls ticks srt ++ stop) = (srt.take ticks.length).map (fun c => c.function) ∧
      (∀ t ∈ ticks, t < xSubEnd) ∧
      ((ticks.length = srt.length ∧ stop = []) ∨
        (ticks.length < srt.length ∧ ∃ t, xSubEnd ≤ t ∧ stop = [.xTaskGetTickCount t])) := by
  obtain ⟨w1, ticks, stop, hrun, hlen, hlog, _, hlt, hend⟩ :=
    srtLoop_spec elapse sf xSubEnd srt 0 w (by simpa using hcells)
  refine ⟨w1, ticks, stop, ?_, hlen, hlog, ?_, hlt, hend⟩
  · simp [prvRunSrtTasks, hsf, hnum, hrun]
  · rw [bodiesOf_append, bodiesOf_srtCalls ticks srt hlen]
    rcases hend with ⟨_, h2⟩ | ⟨_, t, _, h2⟩ <;> simp [h2, bodiesOf]

/-- Two SOFT_RT entries, a clock that advances 5 ticks per read and a
sub-frame that ends at tick 8. -/
theorem prvRunSrtTasks_calls_witness :
    ∃ w1 ticks stop,
      prvRunSrtTasks (fun _ => 5) 0 0 8 twoSrtWorld = some w1 ∧
      ticks.length ≤ twoSrt.length ∧
      w1.log = twoSrtWorld.log ++ srtCalls ticks twoSrt ++ stop ∧
      bodiesOf (srtCalls ticks twoSrt ++ stop)
        = (twoSrt.take ticks.length).map (fun c => c.function) ∧
      (∀ t ∈ ticks, t < 8) ∧
      ((ticks.length = twoSrt.length ∧ stop = []) ∨
        (ticks.length < twoSrt.length ∧ ∃ t, 8 ≤ t ∧ stop = [.xTaskGetTickCount t])) :=
  prvRunSrtTasks_calls (fun _ => 5) 0 0 8 twoSrtWorld _ twoSrt rfl rfl (by decide)

end Sched

namespace Demo

/-! ## The dispatcher: effect of the primitive calls -/

@[simp] theorem observe_log (s : Sys) (c : KCall) :
    (s.observe c).log = s.log ++ [{ call := c, active := s.active }] := rfl
@[simp] theorem observe_tasks (s : Sys) (c : KCall) :
    (s.observe c).xManagedTasks = s.xManagedTasks := rfl
@[simp] theorem observe_count (s : Sys) (c : KCall) :
    (s.observe c).uxManagedTasksCount = s.uxManagedTasksCount := rfl
@[simp] theorem observe_tick (s : Sys) (c : KCall) : (s.observe c).tick = s.tick := rfl
@[simp] theorem observe_calls (s : Sys) (c : KCall) : (s.observe c).calls = s.calls + 1 := rfl
@[simp] theorem observe_active (s : Sys) (c : KCall) : (s.observe c).active = s.active := rfl

@[simp] theorem vTraceLog_log (K : Kernel) (e : TraceEvent_t) (n : String) (t : Nat)
    (s : Sys) :
    (vTraceLog K e n t s).log = s.log ++ [{ call := .vTraceLog e n t, active := s.active }] := by
  unfold vTraceLog; split <;> rfl
@[simp] theorem vTraceLog_tasks (K : Kernel) (e : TraceEvent_t) (n : String) (t : Nat)
    (s : Sys) : (vTraceLog K e n t s).xManagedTasks = s.xManagedTasks := by
  unfold vTraceLog; split <;> rfl
@[simp] theorem vTraceLog_count (K : Kernel) (e : TraceEvent_t) (n : String) (t : Nat)
    (s : Sys) : (vTraceLog K e n t s).uxManagedTasksCount = s.uxManagedTasksCount := by
  unfold vTraceLog; split <;> rfl
@[simp] theorem vTraceLog_tick (K : Kernel) (e : TraceEvent_t) (n : String) (t : Nat)
    (s : Sys) : (vTraceLog K e n t s).tick = s.tick := by
  unfold vTraceLog; split <;> rfl
@[simp] theorem vTraceLog_calls (K : Kernel) (e : TraceEvent_t) (n : String) (t : Nat)
    (s : Sys) : (vTraceLog K e n t s).calls = s.calls + 1 := by
  unfold vTraceLog; split <;> rfl
@[simp] theorem vTraceLog_active (K : Kernel) (e : TraceEvent_t) (n : String) (t : Nat)
    (s : Sys) : (vTraceLog K e n t s).active = s.active := by
  unfold vTraceLog; split <;> rfl

@[simp] theorem xTaskGetTickCount_log (K : Kernel) (s : Sys) :
    (xTaskGetTickCount K s).2.log = s.log ++ [{ call := .xTaskGetTickCount (s.tick + K.elapse s.calls), active := s.active }] := rfl
@[simp] theorem xTaskGetTickCount_tasks (K : Kernel) (s : Sys) :
    (xTaskGetTickCount K s).2.xManagedTasks = s.xManagedTasks := rfl
@[simp] theorem xTaskGetTickCount_count (K : Kernel) (s : Sys) :
    (xTaskGetTickCount K s).2.uxManagedTasksCount = s.uxManagedTasksCount := rfl
@[simp] theorem xTaskGetTickCount_tick (K : Kernel) (s : Sys) :
    (xTaskGetTickCount K s).2.tick = s.tick + K.elapse s.calls := rfl
@[simp] theorem xTaskGetTickCount_calls (K : Kernel) (s : Sys) :
    (xTaskGetTickCount K s).2.calls = s.calls + 1 := rfl
@[simp] theorem xTaskGetTickCount_active (K : Kernel) (s : Sys) :
    (xTaskGetTickCount K s).2.active = s.active := rfl
@[simp] theorem vTaskDelay_log (K : Kernel) (n : Nat) (s : Sys) :
    (vTaskDelay K n s).log = s.log ++ [{ call := .vTaskDelay n, active := s.active }] := rfl
@[simp] theorem vTaskDelay_tasks (K : Kernel) (n : Nat) (s : Sys) :
    (vTaskDelay K n s).xManagedTasks = s.xManagedTasks := rfl
@[simp] theorem vTaskDelay_count (K : Kernel) (n : Nat) (s : Sys) :
    (vTaskDelay K n s).uxManagedTasksCount = s.uxManagedTasksCount := rfl
@[simp] theorem vTaskDelay_tick (K : Kernel) (n : Nat) (s : Sys) :
    (vTaskDelay K n s).tick = s.tick + K.elapse s.calls + n := rfl
@[simp] theorem vTaskDelay_calls (K : Kernel) (n : Nat) (s : Sys) :
    (vTaskDelay K n s).calls = s.calls + 1 := rfl
@[simp] theorem vTaskDelay_active (K : Kernel) (n : Nat) (s : Sys) :
    (vTaskDelay K n s).active = s.active := rfl
@[simp] theorem eTaskGetState_log (K : Kernel) (h : TaskHandle_t) (s : Sys) :
    (eTaskGetState K h s).2.log = s.log ++ [{ call := .eTaskGetState h (K.state s.calls), active := s.active }] := rfl
@[simp] theorem eTaskGetState_tasks (K : Kernel) (h : TaskHandle_t) (s : Sys) :
    (eTaskGetState K h s).2.xManagedTasks = s.xManagedTasks := rfl
@[simp] theorem eTaskGetState_count (K : Kernel) (h : TaskHandle_t) (s : Sys) :
    (eTaskGetState K h s).2.uxManagedTasksCount = s.uxManagedTasksCount := rfl
@[simp] theorem eTaskGetState_tick (K : Kernel) (h : TaskHandle_t) (s : Sys) :
    (eTaskGetState K h s).2.tick = s.tick := rfl
@[simp] theorem eTaskGetState_calls (K : Kernel) (h : TaskHandle_t) (s : Sys) :
    (eTaskGetState K h s).2.calls = s.calls + 1 := rfl
@[simp] theorem eTaskGetState_active (K : Kernel) (h : TaskHandle_t) (s : Sys) :
    (eTaskGetState K h s).2.active = s.active := rfl
@[simp] theorem vTaskDelete_log (h : TaskHandle_t) (s : Sys) :
    (vTaskDelete h s).log = s.log ++ [{ call := .vTaskDelete h, active := s.active }] := rfl
@[simp] theorem vTaskDelete_tasks (h : TaskHandle_t) (s : Sys) :
    (vTaskDelete h s).xManagedTasks = s.xManagedTasks := rfl
@[simp] theorem vTaskDelete_count (h : TaskHandle_t) (s : Sys) :
    (vTaskDelete h s).uxManagedTasksCount = s.uxManagedTasksCount := rfl
@[simp] theorem vTaskDelete_tick (h : TaskHandle_t) (s : Sys) :
    (vTaskDelete h s).tick = s.tick := rfl
@[simp] theorem vTaskDelete_calls (h : TaskHandle_t) (s : Sys) :
    (vTaskDelete h s).calls = s.calls + 1 := rfl
@[simp] theorem vTaskDelete_active (h : TaskHandle_t) (s : Sys) :
    (vTaskDelete h s).active = s.active := rfl
@[simp] theorem xTaskCreate_log (K : Kernel) (f : TaskFunction_t) (n : String) (d p : Nat) (s : Sys) :
    (xTaskCreate K f n d p s).2.log = s.log ++ [{ call := .xTaskCreate f n d p (K.create s.calls), active := s.active }] := rfl
@[simp] theorem xTaskCreate_tasks (K : Kernel) (f : TaskFunction_t) (n : String) (d p : Nat) (s : Sys) :
    (xTaskCreate K f n d p s).2.xManagedTasks = s.xManagedTasks := rfl
@[simp] theorem xTaskCreate_count (K : Kernel) (f : TaskFunction_t) (n : String) (d p : Nat) (s : Sys) :
    (xTaskCreate K f n d p s).2.uxManagedTasksCount = s.uxManagedTasksCount := rfl
@[simp] theorem xTaskCreate_tick (K : Kernel) (f : TaskFunction_t) (n : String) (d p : Nat) (s : Sys) :
    (xTaskCreate K f n d p s).2.tick = s.tick := rfl
@[simp] theorem xTaskCreate_calls (K : Kernel) (f : TaskFunction_t) (n : String) (d p : Nat) (s : Sys) :
    (xTaskCreate K f n d p s).2.calls = s.calls + 1 := rfl
@[simp] theorem xTaskCreate_active (K : Kernel) (f : TaskFunction_t) (n : String) (d p : Nat) (s : Sys) :
    (xTaskCreate K f n d p s).2.active = s.active := rfl
@[simp] theorem xTaskGetTickCount_fst (K : Kernel) (s : Sys) :
    (xTaskGetTickCount K s).1 = s.tick + K.elapse s.calls := rfl
@[simp] theorem eTaskGetState_fst (K : Kernel) (h : TaskHandle_t) (s : Sys) :
    (eTaskGetState K h s).1 = K.state s.calls := rfl
@[simp] theorem xTaskCreate_fst (K : Kernel) (f : TaskFunction_t) (n : String) (d p : Nat)
    (s : Sys) : (xTaskCreate K f n d p s).1 = K.create s.calls := rfl

@[simp] theorem setTask_log (s : Sys) (i : Nat) (f : ManagedTask_t → ManagedTask_t) :
    (setTask s i f).log = s.log := rfl
@[simp] theorem setTask_tasks (s : Sys) (i : Nat) (f : ManagedTask_t → ManagedTask_t) :
    (setTask s i f).xManagedTasks = s.xManagedTasks.modify f i := rfl
@[simp] theorem setTask_count (s : Sys) (i : Nat) (f : ManagedTask_t → ManagedTask_t) :
    (setTask s i f).uxManagedTasksCount = s.uxManagedTasksCount := rfl
@[simp] theorem setTask_tick (s : Sys) (i : Nat) (f : ManagedTask_t → ManagedTask_t) :
    (setTask s i f).tick = s.tick := rfl
@[simp] theorem setTask_calls (s : Sys) (i : Nat) (f : ManagedTask_t → ManagedTask_t) :
    (setTask s i f).calls = s.calls := rfl

/-! ## Snapshots of the active flags -/

theorem map_modify_proj {β : Type} (p : ManagedTask_t → β) (f : ManagedTask_t → ManagedTask_t)
    (g : β → β) (hfg : ∀ m, p (f m) = g (p m)) :
    ∀ (l : List ManagedTask_t) (i : Nat), (l.modify f i).map p = (l.map p).modify g i
  | [], i => by simp
  | m :: l, 0 => by simp [hfg]
  | m :: l, i + 1 => by simp [map_modify_proj p f g hfg l i]

@[simp] theorem active_setHandle (s : Sys) (i : Nat) (h : TaskHandle_t) :
    (setTask s i (fun m => { m with xHandle := h })).active = s.active := by
  have := map_modify_proj ManagedTask_t.active (fun m => { m with xHandle := h }) id
    (fun _ => rfl) s.xManagedTasks i
  simpa [Sys.active] using this

@[simp] theorem active_setFlag (s : Sys) (i : Nat) (v : BaseType_t) :
    (setTask s i (fun m => { m with xIsActive := v })).active
      = s.active.modify (fun _ => decide (v ≠ 0)) i :=
  map_modify_proj ManagedTask_t.active (fun m => { m with xIsActive := v })
    (fun _ => decide (v ≠ 0)) (fun _ => rfl) s.xManagedTasks i

@[simp] theorem plan_setHandle (s : Sys) (i : Nat) (h : TaskHandle_t) :
    (setTask s i (fun m => { m with xHandle := h })).plan = s.plan := by
  have := map_modify_proj (fun m => m.pxConfig) (fun m => { m with xHandle := h }) id
    (fun _ => rfl) s.xManagedTasks i
  simpa [Sys.plan] using this

@[simp] theorem plan_setFlag (s : Sys) (i : Nat) (v : BaseType_t) :
    (setTask s i (fun m => { m with xIsActive := v })).plan = s.plan := by
  have := map_modify_proj (fun m => m.pxConfig) (fun m => { m with xIsActive := v }) id
    (fun _ => rfl) s.xManagedTasks i
  simpa [Sys.plan] using this

theorem plan_of_tasks {s s1 : Sys} (h : s1.xManagedTasks = s.xManagedTasks) :
    s1.plan = s.plan := by
  simp [Sys.plan, h]

theorem plan_getElem? (s : Sys) (i : Nat) (cfg : TimelineTaskConfig_t) :
    s.plan[i]? = some (some cfg) ↔ ∃ m, s.xManagedTasks[i]? = some m ∧ m.pxConfig = some cfg := by
  simp [Sys.plan]

theorem Idle.only {a : List Bool} (h : Idle a) (i : Nat) : Only i a := by
  intro j hj
  have hmem : true ∈ a := List.getElem?_mem hj
  exact absurd (h true hmem) (by decide)

theorem only_modify_true {a : List Bool} (h : Idle a) (i : Nat) :
    Only i (a.modify (fun _ => true) i) := by
  intro j hj
  by_contra hne
  rw [List.getElem?_modify_ne _ _ (Ne.symm hne)] at hj
  exact hne (h.only i j hj)

theorem idle_modify_false {a : List Bool} (i : Nat) (h : Only i a) :
    Idle (a.modify (fun _ => false) i) := by
  intro b hb
  obtain ⟨j, hj⟩ := List.mem_iff_getElem?.mp hb
  cases b with
  | false => rfl
  | true =>
    by_cases hji : i = j
    · subst hji
      rw [List.getElem?_modify_eq] at hj
      cases hx : a[i]? <;> simp [hx] at hj
    · rw [List.getElem?_modify_ne _ _ hji] at hj
      exact absurd (h j hj).symm hji

theorem active_getElem? (s : Sys) (i : Nat) :
    s.active[i]? = (s.xManagedTasks[i]?).map ManagedTask_t.active := by
  simp [Sys.active]

/-! ## Reading logs piecewise -/

@[simp] theorem traceOf_append (a b : List Obs) : traceOf (a ++ b) = traceOf a ++ traceOf b := by
  induction a with
  | nil => rfl
  | cons o os ih => cases o with | mk c act => cases c <;> simp [traceOf, ih]

@[simp] theorem createsOf_append (a b : List Obs) :
    createsOf (a ++ b) = createsOf a ++ createsOf b := by
  induction a with
  | nil => rfl
  | cons o os ih => cases o with | mk c act => cases c <;> simp [createsOf, ih]

@[simp] theorem killsOf_append (a b : List Obs) : killsOf (a ++ b) = killsOf a ++ killsOf b := by
  induction a with
  | nil => rfl
  | cons o os ih => cases o with | mk c act => cases c <;> simp [killsOf, ih]

@[simp] theorem delaysOf_append (a b : List Obs) :
    delaysOf (a ++ b) = delaysOf a ++ delaysOf b := by
  induction a with
  | nil => rfl
  | cons o os ih => cases o with | mk c act => cases c <;> simp [delaysOf, ih]

@[simp] theorem statesOf_append (a b : List Obs) :
    statesOf (a ++ b) = statesOf a ++ statesOf b := by
  induction a with
  | nil => rfl
  | cons o os ih => cases o with | mk c act => cases c <;> simp [statesOf, ih]

/-! ## The monitor loop -/

theorem monitorLoop_spec (K : Kernel) (i : Nat) (D : Nat) (cfg : TimelineTaskConfig_t) :
    ∀ (fuel : Nat) (s : Sys) (m : ManagedTask_t),
      s.xManagedTasks[i]? = some m → m.xIsActive ≠ 0 → m.pxConfig = some cfg →
      Only i s.active → 0 < fuel → D < s.tick + fuel →
      ∃ s1 mid ev t,
        monitorLoop K i D fuel s = some s1 ∧
        s1.log = s.log ++ mid ++ [{ call := .vTraceLog ev cfg.pcName t, active := s1.active }] ∧
        Idle s1.active ∧
        s1.xManagedTasks = s.xManagedTasks.modify (fun m => { m with xIsActive := pdFALSE }) i ∧
        s1.uxManagedTasksCount = s.uxManagedTasksCount ∧
        traceOf mid = [] ∧ createsOf mid = [] ∧ (∀ o ∈ mid, Only i o.active) ∧
        s.tick ≤ t ∧ s1.tick = t ∧
        ((ev = TRACE_EVENT_TASK_COMPLETE ∧ killsOf mid = []) ∨
          (ev = TRACE_EVENT_DEADLINE_MISS ∧ D ≤ t ∧ killsOf mid = [m.xHandle])) ∧
        (ExactClock K → t ≤ max s.tick D) ∧
        (D ≤ s.tick → delaysOf mid = []) := by
  intro fuel
  induction fuel with
  | zero => intro s m _ _ _ _ h0; exact absurd h0 (by decide)
  | succ fuel ih =>
    intro s m hm hact hcfg honly _ hfuel
    have hidle : Idle (s.active.modify (fun _ => false) i) := idle_modify_false i honly
    by_cases hdel : K.state s.calls = eTaskState.eDeleted
    · -- the worker is seen deleted
      refine ⟨vTraceLog K TRACE_EVENT_TASK_COMPLETE cfg.pcName (s.tick + K.elapse (s.calls + 1))
          (xTaskGetTickCount K (setTask (eTaskGetState K m.xHandle s).2 i
            (fun m => { m with xIsActive := pdFALSE }))).2,
        [{ call := .eTaskGetState m.xHandle (K.state s.calls), active := s.active },
          { call := .xTaskGetTickCount (s.tick + K.elapse (s.calls + 1)),
            active := s.active.modify (fun _ => false) i }],
        TRACE_EVENT_TASK_COMPLETE, s.tick + K.elapse (s.calls + 1), ?_, ?_, ?_, ?_, ?_, ?_⟩
      · simp only [monitorLoop, hm, hact, hcfg, eTaskGetState, hdel, xTaskGetTickCount]
        simp
      · simp [active_setFlag]
      · simpa [active_setFlag] using hidle
      · simp
      · simp
      · refine ⟨by simp [traceOf], by simp [createsOf], ?_, by simp, by simp, ?_, ?_,
          fun _ => by simp [delaysOf]⟩
        · intro o ho
          simp only [List.mem_cons, List.mem_singleton, List.not_mem_nil, or_false] at ho
          rcases ho with h | h
          · subst h; exact honly
          · subst h; exact hidle.only i
        · exact Or.inl ⟨rfl, by simp [killsOf]⟩
        · intro hx; simp [hx s.calls.succ]
    · by_cases hlate : D ≤ s.tick + K.elapse (s.calls + 1)
      · -- the deadline is reached
        refine ⟨vTraceLog K TRACE_EVENT_DEADLINE_MISS cfg.pcName
            (s.tick + K.elapse (s.calls + 1) + K.elapse (s.calls + 1 + 1 + 1))
            (xTaskGetTickCount K (setTask (vTaskDelete m.xHandle
              (xTaskGetTickCount K (eTaskGetState K m.xHandle s).2).2) i
              (fun m => { m with xIsActive := pdFALSE }))).2,
          [{ call := .eTaskGetState m.xHandle (K.state s.calls), active := s.active },
            { call := .xTaskGetTickCount (s.tick + K.elapse (s.calls + 1)), active := s.active },
            { call := .vTaskDelete m.xHandle, active := s.active },
            { call := .xTaskGetTickCount
                (s.tick + K.elapse (s.calls + 1) + K.elapse (s.calls + 1 + 1 + 1)),
              active := s.active.modify (fun _ => false) i }],
          TRACE_EVENT_DEADLINE_MISS,
          s.tick + K.elapse (s.calls + 1) + K.elapse (s.calls + 1 + 1 + 1), ?_, ?_, ?_, ?_, ?_, ?_⟩
        · simp only [monitorLoop, hm, hact, hcfg, eTaskGetState, hdel, xTaskGetTickCount]
          simp [hlate, vTaskDelete]
        · simp [active_setFlag]
        · simpa [active_setFlag] using hidle
        · simp
        · simp
        · refine ⟨by simp [traceOf], by simp [createsOf], ?_, by omega,
            by simp, ?_, ?_, fun _ => by simp [delaysOf]⟩
          · intro o ho
            simp only [List.mem_cons, List.mem_singleton, List.not_mem_nil, or_false] at ho
            rcases ho with h | h | h | h
            · subst h; exact honly
            · subst h; exact honly
            · subst h; exact honly
            · subst h; exact hidle.only i
          · exact Or.inr ⟨rfl, by omega, by simp [killsOf]⟩
          · intro hx; simp [hx (s.calls + 1), hx (s.calls + 1 + 1 + 1)]
      · -- one more round after a delay of one tick
        have hstep : monitorLoop K i D (fuel + 1) s
            = monitorLoop K i D fuel
                (vTaskDelay K 1 (xTaskGetTickCount K (eTaskGetState K m.xHandle s).2).2) := by
          simp only [monitorLoop, hm, hact, hcfg, eTaskGetState, hdel, xTaskGetTickCount]
          simp [hlate]
        obtain ⟨s1, mid, ev, t, hrun, hlog, hid, htab, hcnt, htr, hcr, hon, hle, htk, hev, hex,
            _⟩ :=
          ih (vTaskDelay K 1 (xTaskGetTickCount K (eTaskGetState K m.xHandle s).2).2) m
            (by simpa using hm) hact hcfg
            (by simpa using honly)
            (by omega)
            (by simp; omega)
        refine ⟨s1, [{ call := .eTaskGetState m.xHandle (K.state s.calls), active := s.active },
            { call := .xTaskGetTickCount (s.tick + K.elapse (s.calls + 1)), active := s.active },
            { call := .vTaskDelay 1, active := s.active }] ++ mid, ev, t,
          by rw [hstep, hrun], ?_, hid, ?_, ?_, ?_, ?_, ?_, ?_, htk, ?_, ?_,
          fun h => absurd (le_trans h (Nat.le_add_right _ _)) hlate⟩
        · rw [hlog]; simp
        · rw [htab]; simp
        · rw [hcnt]; simp
        · simp [traceOf, htr]
        · simp [createsOf, hcr]
        · intro o ho
          simp only [List.cons_append, List.nil_append, List.mem_cons] at ho
          rcases ho with h | h | h | h
          · subst h; exact honly
          · subst h; exact honly
          · subst h; exact honly
          · exact hon o h
        · simp at hle; omega
        · rcases hev with ⟨h1, h2⟩ | ⟨h1, h2, h3⟩
          · exact Or.inl ⟨h1, by simp [killsOf, h2]⟩
          · exact Or.inr ⟨h1, h2, by simp [killsOf, h3]⟩
        · intro hx
          have h := hex hx
          simp [hx (s.calls + 1), hx (s.calls + 1 + 1)] at h hlate
          omega

/-! ## One slot of the HRT loop -/

theorem hrtAfterCreate_spec (K : Kernel) (fuel start i : Nat) (cfg : TimelineTaskConfig_t)
    (s3 : Sys) (m3 : ManagedTask_t)
    (hm : s3.xManagedTasks[i]? = some m3) (hcfg : m3.pxConfig = some cfg)
    (hidle : Idle s3.active) (hpos : 0 < fuel)
    (hfuel : (start + cfg.ulEndTimeTicks) % 2 ^ K.tickBits < s3.tick + fuel) :
    ∃ s1 seg,
      hrtAfterCreate K fuel start i cfg s3 = some s1 ∧
      s1.log = s3.log ++ seg ∧ Idle s1.active ∧ s1.plan = s3.plan ∧
      s1.uxManagedTasksCount = s3.uxManagedTasksCount ∧ s3.tick ≤ s1.tick ∧
      (∀ o ∈ seg, Only i o.active) ∧ createsOf seg = [] ∧
      (∀ r ∈ traceOf seg, r.1 ≠ TRACE_EVENT_MAJOR_FRAME_START) ∧
      (ExactClock K → s1.tick ≤ max s3.tick ((start + cfg.ulEndTimeTicks) % 2 ^ K.tickBits)) ∧
      ((start + cfg.ulEndTimeTicks) % 2 ^ K.tickBits ≤ s3.tick → delaysOf seg = []) ∧
      (m3.xHandle = none →
        ∃ t, traceOf seg = [(TRACE_EVENT_TASK_CREATE_FAILED, cfg.pcName, t)] ∧
          killsOf seg = [] ∧ ∀ o ∈ seg, Idle o.active) ∧
      (m3.xHandle ≠ none →
        ∃ t1 mid ev t2 a0 a1 a2,
          seg = [⟨.xTaskGetTickCount t1, a0⟩,
                  ⟨.vTraceLog TRACE_EVENT_TASK_SPAWN cfg.pcName t1, a1⟩]
                ++ mid ++ [⟨.vTraceLog ev cfg.pcName t2, a2⟩] ∧
          Idle a0 ∧ Idle a1 ∧ Idle a2 ∧ traceOf mid = [] ∧ s3.tick ≤ t1 ∧ t1 ≤ t2 ∧
          ((ev = TRACE_EVENT_TASK_COMPLETE ∧ killsOf mid = [] ∧
              (ExactClock K → s3.tick ≤ (start + cfg.ulEndTimeTicks) % 2 ^ K.tickBits →
                t2 ≤ (start + cfg.ulEndTimeTicks) % 2 ^ K.tickBits)) ∨
            (ev = TRACE_EVENT_DEADLINE_MISS ∧ (start + cfg.ulEndTimeTicks) % 2 ^ K.tickBits ≤ t2 ∧
              killsOf mid = [m3.xHandle]))) := by
  cases hh : m3.xHandle with
  | none =>
    refine ⟨vTraceLog K TRACE_EVENT_TASK_CREATE_FAILED cfg.pcName (s3.tick + K.elapse s3.calls)
        (xTaskGetTickCount K s3).2,
      [⟨.xTaskGetTickCount (s3.tick + K.elapse s3.calls), s3.active⟩,
        ⟨.vTraceLog TRACE_EVENT_TASK_CREATE_FAILED cfg.pcName (s3.tick + K.elapse s3.calls),
          s3.active⟩], ?_, by simp, by simpa using hidle, ?_, by simp, by simp, ?_, by simp [createsOf],
      by simp [traceOf], ?_, fun _ => by simp [delaysOf], ?_, by simp⟩
    · simp [hrtAfterCreate, hm, hh, xTaskGetTickCount]
    · exact plan_of_tasks (by simp)
    · intro o ho
      simp only [List.mem_cons, List.mem_singleton, List.not_mem_nil, or_false] at ho
      rcases ho with h | h <;> subst h <;> exact hidle.only i
    · intro hx; simp [hx s3.calls]
    · intro _
      refine ⟨s3.tick + K.elapse s3.calls, by simp [traceOf], by simp [killsOf], ?_⟩
      intro o ho
      simp only [List.mem_cons, List.mem_singleton, List.not_mem_nil, or_false] at ho
      rcases ho with h | h <;> subst h <;> exact hidle
  | some h =>
    have hm6 : (setTask (vTraceLog K TRACE_EVENT_TASK_SPAWN cfg.pcName
          (s3.tick + K.elapse s3.calls) (xTaskGetTickCount K s3).2) i
          (fun m => { m with xIsActive := pdTRUE })).xManagedTasks[i]?
        = some { m3 with xIsActive := pdTRUE } := by
      simp [List.getElem?_modify_eq, hm]
    have hon6 : Only i (setTask (vTraceLog K TRACE_EVENT_TASK_SPAWN cfg.pcName
          (s3.tick + K.elapse s3.calls) (xTaskGetTickCount K s3).2) i
          (fun m => { m with xIsActive := pdTRUE })).active := by
      simpa using only_modify_true hidle i
    obtain ⟨s1, mid, ev, t, hrun, hlog, hid, htab, hcnt, htr, hcr, hon, hle, htk, hev, hex,
        hdl⟩ :=
      monitorLoop_spec K i ((start + cfg.ulEndTimeTicks) % 2 ^ K.tickBits) cfg fuel _
        { m3 with xIsActive := pdTRUE } hm6 (by simp) hcfg hon6 hpos (by simp; omega)
    refine ⟨s1, [⟨.xTaskGetTickCount (s3.tick + K.elapse s3.calls), s3.active⟩,
        ⟨.vTraceLog TRACE_EVENT_TASK_SPAWN cfg.pcName (s3.tick + K.elapse s3.calls), s3.active⟩]
        ++ mid ++ [⟨.vTraceLog ev cfg.pcName t, s1.active⟩], ?_, ?_, hid, ?_, ?_, ?_, ?_, ?_, ?_,
      ?_, ?_, ?_, ?_⟩
    · simp only [hrtAfterCreate, hm, hh]
      simpa [xTaskGetTickCount] using hrun
    · rw [hlog]; simp
    · have : s1.plan = (setTask (vTraceLog K TRACE_EVENT_TASK_SPAWN cfg.pcName
          (s3.tick + K.elapse s3.calls) (xTaskGetTickCount K s3).2) i
          (fun m => { m with xIsActive := pdTRUE })).plan := by
        have h1 := map_modify_proj (fun m => m.pxConfig)
          (fun m => { m with xIsActive := pdFALSE }) id (fun _ => rfl)
          (setTask (vTraceLog K TRACE_EVENT_TASK_SPAWN cfg.pcName
            (s3.tick + K.elapse s3.calls) (xTaskGetTickCount K s3).2) i
            (fun m => { m with xIsActive := pdTRUE })).xManagedTasks i
        simp only [Sys.plan, htab]
        simpa using h1
      rw [this, plan_setFlag]
      exact plan_of_tasks (by simp)
    · rw [hcnt]; simp
    · rw [htk]; simp at hle; omega
    · intro o ho
      simp only [List.cons_append, List.nil_append, List.mem_cons, List.mem_append,
        List.mem_singleton, List.not_mem_nil, or_false] at ho
      rcases ho with h | h | h | h
      · subst h; exact hidle.only i
      · subst h; exact hidle.only i
      · exact hon o h
      · subst h; exact hid.only i
    · simp [createsOf, hcr]
    · intro r hr
      simp [traceOf, htr] at hr
      rcases hr with h | h
      · subst h; simp
      · subst h
        rcases hev with ⟨h1, _⟩ | ⟨h1, _⟩ <;> simp [h1]
    · intro hx
      have := hex hx
      simp only [setTask_tick, vTraceLog_tick, xTaskGetTickCount_tick, hx s3.calls,
        Nat.add_zero] at this
      rw [htk]; exact this
    · intro hl
      have := hdl (by simp; omega)
      simp [delaysOf, this]
    · intro hnone; exact absurd hnone (by simp)
    · intro _
      refine ⟨_, mid, ev, t, s3.active, s3.active, s1.active, rfl, hidle, hidle, hid, htr,
        by omega, by simp at hle; omega, ?_⟩
      rcases hev with ⟨h1, h2⟩ | ⟨h1, h2, h3⟩
      · refine Or.inl ⟨h1, h2, ?_⟩
        intro hx hle3
        have := hex hx
        simp only [setTask_tick, vTraceLog_tick, xTaskGetTickCount_tick, hx s3.calls,
          Nat.add_zero] at this
        rcases le_max_iff.mp this with h | h <;> omega
      · exact Or.inr ⟨h1, h2, by simpa [hh] using h3⟩

theorem hrtWait_spec (K : Kernel) (start : Nat) (cfg : TimelineTaskConfig_t) (s : Sys) :
    ∃ pre, (hrtWait K start cfg s).log = s.log ++ pre ∧
      (∀ o ∈ pre, o.active = s.active) ∧
      traceOf pre = [] ∧ createsOf pre = [] ∧ killsOf pre = [] ∧
      (hrtWait K start cfg s).xManagedTasks = s.xManagedTasks ∧
      (hrtWait K start cfg s).uxManagedTasksCount = s.uxManagedTasksCount ∧
      s.tick ≤ (hrtWait K start cfg s).tick ∧
      (start + cfg.ulStartTimeTicks) % 2 ^ K.tickBits ≤ (hrtWait K start cfg s).tick ∧
      (ExactClock K →
        (hrtWait K start cfg s).tick = max s.tick ((start + cfg.ulStartTimeTicks) % 2 ^ K.tickBits)) := by
  by_cases hlt : s.tick + K.elapse s.calls < (start + cfg.ulStartTimeTicks) % 2 ^ K.tickBits
  · have hw : hrtWait K start cfg s
        = vTaskDelay K ((start + cfg.ulStartTimeTicks) % 2 ^ K.tickBits - (s.tick + K.elapse s.calls))
            (xTaskGetTickCount K s).2 := by
      simp [hrtWait, xTaskGetTickCount, hlt]
    rw [hw]
    refine ⟨[⟨.xTaskGetTickCount (s.tick + K.elapse s.calls), s.active⟩,
        ⟨.vTaskDelay ((start + cfg.ulStartTimeTicks) % 2 ^ K.tickBits - (s.tick + K.elapse s.calls)), s.active⟩],
      by simp, ?_, by simp [traceOf], by simp [createsOf], by simp [killsOf], by simp, by simp,
      by simp; omega, by simp; omega, ?_⟩
    · intro o ho
      simp only [List.mem_cons, List.mem_singleton, List.not_mem_nil, or_false] at ho
      rcases ho with h | h <;> subst h <;> rfl
    · intro hx
      have h0 := hx s.calls
      have h1 := hx (s.calls + 1)
      simp only [h0, Nat.add_zero] at hlt
      simp only [vTaskDelay_tick, xTaskGetTickCount_tick, xTaskGetTickCount_calls, h0, h1,
        Nat.add_zero]
      rw [max_eq_right (le_of_lt hlt)]
      omega
  · have hw : hrtWait K start cfg s = (xTaskGetTickCount K s).2 := by
      simp [hrtWait, xTaskGetTickCount, hlt]
    rw [hw]
    refine ⟨[⟨.xTaskGetTickCount (s.tick + K.elapse s.calls), s.active⟩],
      by simp, ?_, by simp [traceOf], by simp [createsOf], by simp [killsOf], by simp, by simp,
      by simp, by simp; omega, ?_⟩
    · intro o ho
      simp only [List.mem_singleton] at ho
      subst ho; rfl
    · intro hx
      have h0 := hx s.calls
      simp only [h0, Nat.add_zero] at hlt
      simp only [xTaskGetTickCount_tick, h0, Nat.add_zero]
      rw [max_eq_left (by omega)]

theorem hrtSpawn_spec (K : Kernel) (i : Nat) (cfg : TimelineTaskConfig_t) (s2 : Sys)
    (m : ManagedTask_t) (hm : s2.xManagedTasks[i]? = some m) :
    (hrtSpawn K i cfg s2).log = s2.log ++
        [⟨.xTaskCreate cfg.pvTaskCode cfg.pcName K.configMINIMAL_STACK_SIZE
            (K.tskIDLE_PRIORITY + 2) (K.create s2.calls), s2.active⟩] ∧
      (hrtSpawn K i cfg s2).active = s2.active ∧
      (hrtSpawn K i cfg s2).plan = s2.plan ∧
      (hrtSpawn K i cfg s2).tick = s2.tick ∧
      (hrtSpawn K i cfg s2).uxManagedTasksCount = s2.uxManagedTasksCount ∧
      ∃ m3, (hrtSpawn K i cfg s2).xManagedTasks[i]? = some m3 ∧ m3.pxConfig = m.pxConfig ∧
        (∀ h, K.create s2.calls = some h → m3.xHandle = some h) ∧
        (K.create s2.calls = none → m3.xHandle = m.xHandle) := by
  cases hc : K.create s2.calls with
  | none =>
    have hs : hrtSpawn K i cfg s2
        = (xTaskCreate K cfg.pvTaskCode cfg.pcName K.configMINIMAL_STACK_SIZE
            (K.tskIDLE_PRIORITY + 2) s2).2 := by
      simp [hrtSpawn, xTaskCreate, hc]
    rw [hs]
    exact ⟨by simp [hc], by simp, plan_of_tasks (by simp), by simp, by simp,
      m, by simpa using hm, rfl, by simp, fun _ => rfl⟩
  | some h =>
    have hs : hrtSpawn K i cfg s2
        = setTask (xTaskCreate K cfg.pvTaskCode cfg.pcName K.configMINIMAL_STACK_SIZE
            (K.tskIDLE_PRIORITY + 2) s2).2 i (fun m => { m with xHandle := some h }) := by
      simp [hrtSpawn, xTaskCreate, hc]
    rw [hs]
    exact ⟨by simp [hc], by simp, by rw [plan_setHandle]; exact plan_of_tasks (by simp),
      by simp, by simp, { m with xHandle := some h },
      by simp [List.getElem?_modify_eq, hm], rfl, by simp, by simp⟩

theorem hrtSlot_spec (K : Kernel) (fuel start i : Nat) (s : Sys) (cfg : TimelineTaskConfig_t)
    (hplan : s.plan[i]? = some (some cfg)) (hidle : Idle s.active)
    (hfuel : cfg.xTaskType = .TASK_TYPE_HARD_RT → cfg.ulEndTimeTicks < fuel)
    (hst : cfg.xTaskType = .TASK_TYPE_HARD_RT → start ≤ s.tick ∨
      (start + cfg.ulStartTimeTicks < 2 ^ K.tickBits ∧
        start + cfg.ulEndTimeTicks < 2 ^ K.tickBits)) :
    ∃ s1 seg,
      hrtSlot K fuel start i s = some s1 ∧
      s1.log = s.log ++ seg ∧ Idle s1.active ∧ s1.plan = s.plan ∧
      s1.uxManagedTasksCount = s.uxManagedTasksCount ∧ s.tick ≤ s1.tick ∧
      (∀ o ∈ seg, Only i o.active) ∧
      (∀ r ∈ traceOf seg, r.1 ≠ TRACE_EVENT_MAJOR_FRAME_START) ∧
      (ExactClock K → ∀ B,
        (cfg.xTaskType = .TASK_TYPE_HARD_RT →
          cfg.ulStartTimeTicks ≤ B ∧ cfg.ulEndTimeTicks ≤ B) →
        s1.tick ≤ max s.tick (start + B)) ∧
      (cfg.xTaskType = .TASK_TYPE_HARD_RT → ∀ h, createsOf seg = [(cfg.pcName, some h)] →
        ∃ pre mid t1 ev t2 a1 a2,
          seg = pre ++ [⟨.vTraceLog TRACE_EVENT_TASK_SPAWN cfg.pcName t1, a1⟩] ++ mid
                  ++ [⟨.vTraceLog ev cfg.pcName t2, a2⟩] ∧
          traceOf pre = [] ∧ traceOf mid = [] ∧
          (ev = TRACE_EVENT_TASK_COMPLETE ∨ ev = TRACE_EVENT_DEADLINE_MISS) ∧
          (∀ o ∈ pre, Idle o.active) ∧ Idle a1 ∧ Idle a2) := by
  obtain ⟨m, hm, hcfg⟩ := (plan_getElem? s i cfg).mp hplan
  by_cases hty : cfg.xTaskType = .TASK_TYPE_HARD_RT
  · obtain ⟨pre, hwlog, hwact, hwtr, hwcr, _, hwtab, hwcnt, hwle, hwst, hwex⟩ :=
      hrtWait_spec K start cfg s
    obtain ⟨hslog, hsact, hsplan, hstick, hscnt, m3, hm3, hcfg3, hok, _⟩ :=
      hrtSpawn_spec K i cfg (hrtWait K start cfg s) m (by rw [hwtab]; exact hm)
    have hact2 : (hrtWait K start cfg s).active = s.active := by simp [Sys.active, hwtab]
    have hmodS : (start + cfg.ulStartTimeTicks) % 2 ^ K.tickBits ≤ start + cfg.ulStartTimeTicks :=
      Nat.mod_le _ _
    have hmodE : (start + cfg.ulEndTimeTicks) % 2 ^ K.tickBits ≤ start + cfg.ulEndTimeTicks :=
      Nat.mod_le _ _
    have hbound : (start + cfg.ulEndTimeTicks) % 2 ^ K.tickBits
        < (hrtWait K start cfg s).tick + fuel := by
      have hf := hfuel hty
      rcases hst hty with h | ⟨h1, _⟩
      · omega
      · rw [Nat.mod_eq_of_lt h1] at hwst
        omega
    obtain ⟨s1, seg, hrun, hlog, hid, hpl, hcnt, hle, hon, hcr, hnf, hex, _, _, hsp⟩ :=
      hrtAfterCreate_spec K fuel start i cfg _ m3 hm3 (by rw [hcfg3, hcfg])
        (by rw [hsact, hact2]; exact hidle) (by have := hfuel hty; omega)
        (by rw [hstick]; exact hbound)
    refine ⟨s1, pre ++ [⟨.xTaskCreate cfg.pvTaskCode cfg.pcName K.configMINIMAL_STACK_SIZE
        (K.tskIDLE_PRIORITY + 2) (K.create (hrtWait K start cfg s).calls),
        (hrtWait K start cfg s).active⟩] ++ seg, ?_, ?_, hid, ?_, ?_, ?_, ?_, ?_, ?_, ?_⟩
    · simp [hrtSlot, hm, hcfg, hty, hrun]
    · rw [hlog, hslog, hwlog]; simp
    · rw [hpl, hsplan]; exact plan_of_tasks hwtab
    · rw [hcnt, hscnt, hwcnt]
    · rw [hstick] at hle; omega
    · intro o ho
      simp only [List.mem_append, List.mem_singleton] at ho
      rcases ho with (h | h) | h
      · rw [hwact o h]; exact hidle.only i
      · subst h; rw [hact2]; exact hidle.only i
      · exact hon o h
    · intro r hr
      simp [hwtr, traceOf] at hr
      exact hnf r hr
    · intro hx B hB
      have h1 := hex hx
      have h2 := hwex hx
      have h3 := hB hty
      rw [hstick, h2] at h1
      simp only [le_max_iff, max_le_iff] at h1 ⊢
      omega
    · intro _ h hcreate
      have hc : K.create (hrtWait K start cfg s).calls = some h := by
        simpa [hwcr, hcr, createsOf] using hcreate
      obtain ⟨t1, mid, ev, t2, a0, a1, a2, hseg, h0, h1, h2, htr, _, _, hev⟩ :=
        hsp (by rw [hok h hc]; simp)
      refine ⟨pre ++ [⟨.xTaskCreate cfg.pvTaskCode cfg.pcName K.configMINIMAL_STACK_SIZE
          (K.tskIDLE_PRIORITY + 2) (K.create (hrtWait K start cfg s).calls),
          (hrtWait K start cfg s).active⟩, ⟨.xTaskGetTickCount t1, a0⟩],
        mid, t1, ev, t2, a1, a2, by rw [hseg]; simp, by simp [hwtr, traceOf], htr, ?_, ?_, h1, h2⟩
      · rcases hev with ⟨h, _⟩ | ⟨h, _⟩
        · exact Or.inl h
        · exact Or.inr h
      · intro o ho
        simp only [List.mem_append, List.mem_cons, List.mem_singleton, List.not_mem_nil,
          or_false] at ho
        rcases ho with h | h | h
        · rw [hwact o h]; exact hidle
        · subst h; rw [hact2]; exact hidle
        · subst h; exact h0
  · refine ⟨s, [], ?_, by simp, hidle, rfl, rfl, le_refl _, by simp, by simp [traceOf], ?_, ?_⟩
    · simp [hrtSlot, hm, hcfg, hty]
    · intro _ B _; exact le_max_left _ _
    · intro h; exact absurd h hty

/-! ## The HRT loop and the major frame -/

theorem hrtLoop_add (K : Kernel) (fuel start : Nat) :
    ∀ (a b i : Nat) (s : Sys),
      hrtLoop K fuel start (a + b) i s
        = (hrtLoop K fuel start a i s).bind (hrtLoop K fuel start b (i + a))
  | 0, b, i, s => by simp [hrtLoop]
  | a + 1, b, i, s => by
    rw [show a + 1 + b = (a + b) + 1 by omega]
    simp only [hrtLoop]
    cases hrtSlot K fuel start i s with
    | none => rfl
    | some s1 =>
      simp only [Option.bind]
      rw [hrtLoop_add K fuel start a b (i + 1) s1, show i + 1 + a = i + (a + 1) by omega]
      rfl

theorem hrtLoop_spec (K : Kernel) (fuel start : Nat) :
    ∀ (n i : Nat) (s : Sys),
      (∀ j, i ≤ j → j < i + n → ∃ cfg, s.plan[j]? = some (some cfg) ∧
        (cfg.xTaskType = .TASK_TYPE_HARD_RT → cfg.ulEndTimeTicks < fuel ∧
          (start ≤ s.tick ∨ (start + cfg.ulStartTimeTicks < 2 ^ K.tickBits ∧
            start + cfg.ulEndTimeTicks < 2 ^ K.tickBits)))) →
      Idle s.active →
      ∃ s1 seg,
        hrtLoop K fuel start n i s = some s1 ∧
        s1.log = s.log ++ seg ∧ Idle s1.active ∧ s1.plan = s.plan ∧
        s1.uxManagedTasksCount = s.uxManagedTasksCount ∧ s.tick ≤ s1.tick ∧
        (∀ r ∈ traceOf seg, r.1 ≠ TRACE_EVENT_MAJOR_FRAME_START) ∧
        (ExactClock K → ∀ B,
          (∀ j cfg, i ≤ j → j < i + n → s.plan[j]? = some (some cfg) →
            cfg.xTaskType = .TASK_TYPE_HARD_RT →
            cfg.ulStartTimeTicks ≤ B ∧ cfg.ulEndTimeTicks ≤ B) →
          s1.tick ≤ max s.tick (start + B))
  | 0, i, s, _, hidle =>
    ⟨s, [], rfl, by simp, hidle, rfl, rfl, le_refl _, by simp [traceOf],
      fun _ _ _ => le_max_left _ _⟩
  | n + 1, i, s, hslots, hidle => by
    obtain ⟨cfg, hplan, hfuel⟩ := hslots i (le_refl _) (by omega)
    obtain ⟨s1, seg1, hrun1, hlog1, hid1, hpl1, hcnt1, hle1, _, hnf1, hex1, _⟩ :=
      hrtSlot_spec K fuel start i s cfg hplan hidle (fun h => (hfuel h).1) (fun h => (hfuel h).2)
    obtain ⟨s2, seg2, hrun2, hlog2, hid2, hpl2, hcnt2, hle2, hnf2, hex2⟩ :=
      hrtLoop_spec K fuel start n (i + 1) s1
        (fun j h1 h2 => by
          rw [hpl1]
          obtain ⟨c, hc1, hc2⟩ := hslots j (by omega) (by omega)
          refine ⟨c, hc1, fun hty => ⟨(hc2 hty).1, ?_⟩⟩
          rcases (hc2 hty).2 with h | h
          · exact Or.inl (le_trans h hle1)
          · exact Or.inr h) hid1
    refine ⟨s2, seg1 ++ seg2, ?_, ?_, hid2, by rw [hpl2, hpl1], by rw [hcnt2, hcnt1],
      by omega, ?_, ?_⟩
    · simp [hrtLoop, hrun1, hrun2]
    · rw [hlog2, hlog1]; simp
    · intro r hr
      simp only [traceOf_append, List.mem_append] at hr
      rcases hr with h | h
      · exact hnf1 r h
      · exact hnf2 r h
    · intro hx B hB
      have h1 := hex1 hx B (hB i cfg (le_refl _) (by omega) hplan)
      have h2 := hex2 hx B
        (fun j c h1 h2 h3 => hB j c (by omega) (by omega) (by rw [← hpl1]; exact h3))
      simp only [le_max_iff] at h1 h2 ⊢
      omega

/-! ## The HRT phase: claims -/

/-- C3. Run the HRT loop over slots `0 .. n-1` from a state in which no slot
is active, with a loop bound `fuel` above every HARD_RT deadline offset, for a
frame start `start` that is a tick already read from the clock
(`start ≤ s.tick`, as in `prvSchedulerTask`, where it is the tick read at the
top of the frame) or for which no start tick and no deadline of a HARD_RT slot
wraps in `TickType_t`.  For every kernel (clock, creation outcomes, task
states) the loop returns, and for
every slot `j`: no slot is active when slot `j` is started nor when it is left;
at every call made while slot `j` is processed no slot other than `j` is
active; and when `xTaskCreate` succeeds for a HARD_RT slot, the calls of the
slot are `pre`, then the TASK_SPAWN entry of the task, then `mid`, then one
TASK_COMPLETE or DEADLINE_MISS entry of the same task, where `pre` and `mid`
contain no trace entry, and no slot is active during `pre`, at the TASK_SPAWN
entry and at the terminal entry. -/
theorem hrt_phase_spawn_bracket (K : Kernel) (fuel start n : Nat) (s : Sys)
    (hslots : ∀ j, j < n → ∃ cfg, s.plan[j]? = some (some cfg) ∧
      (cfg.xTaskType = .TASK_TYPE_HARD_RT → cfg.ulEndTimeTicks < fuel))
    (hstart : start ≤ s.tick ∨
      ∀ j cfg, j < n → s.plan[j]? = some (some cfg) → cfg.xTaskType = .TASK_TYPE_HARD_RT →
        start + cfg.ulStartTimeTicks < 2 ^ K.tickBits ∧
        start + cfg.ulEndTimeTicks < 2 ^ K.tickBits)
    (hidle : Idle s.active) :
    (∃ s1, hrtLoop K fuel start n 0 s = some s1 ∧ Idle s1.active) ∧
    ∀ j, j < n → ∃ sj sj1 cfg seg,
      hrtLoop K fuel start j 0 s = some sj ∧
      hrtLoop K fuel start (j + 1) 0 s = some sj1 ∧
      sj.plan[j]? = some (some cfg) ∧
      Idle sj.active ∧ Idle sj1.active ∧
      sj1.log = sj.log ++ seg ∧
      (∀ o ∈ seg, Only j o.active) ∧
      (cfg.xTaskType = .TASK_TYPE_HARD_RT → ∀ h, createsOf seg = [(cfg.pcName, some h)] →
        ∃ pre mid t1 ev t2 a1 a2,
          seg = pre ++ [⟨.vTraceLog TRACE_EVENT_TASK_SPAWN cfg.pcName t1, a1⟩] ++ mid
                  ++ [⟨.vTraceLog ev cfg.pcName t2, a2⟩] ∧
          traceOf pre = [] ∧ traceOf mid = [] ∧
          (ev = TRACE_EVENT_TASK_COMPLETE ∨ ev = TRACE_EVENT_DEADLINE_MISS) ∧
          (∀ o ∈ pre, Idle o.active) ∧ Idle a1 ∧ Idle a2) := by
  have hall : ∀ j, j < n → ∃ cfg, s.plan[j]? = some (some cfg) ∧
      (cfg.xTaskType = .TASK_TYPE_HARD_RT → cfg.ulEndTimeTicks < fuel ∧
        (start ≤ s.tick ∨ (start + cfg.ulStartTimeTicks < 2 ^ K.tickBits ∧
          start + cfg.ulEndTimeTicks < 2 ^ K.tickBits))) := by
    intro j hj
    obtain ⟨cfg, h1, h2⟩ := hslots j hj
    refine ⟨cfg, h1, fun hty => ⟨h2 hty, ?_⟩⟩
    rcases hstart with h | h
    · exact Or.inl h
    · exact Or.inr (h j cfg hj h1 hty)
  constructor
  · obtain ⟨s1, _, hrun, _, hid, _⟩ :=
      hrtLoop_spec K fuel start n 0 s (fun j _ h => hall j (by omega)) hidle
    exact ⟨s1, hrun, hid⟩
  · intro j hj
    obtain ⟨sj, _, hrunj, _, hidj, hplj, _, hlej, _⟩ :=
      hrtLoop_spec K fuel start j 0 s (fun k _ h => hall k (by omega)) hidle
    obtain ⟨cfg, hplan, hfuel⟩ := hall j hj
    obtain ⟨sj1, seg, hrun1, hlog1, hid1, _, _, _, hon, _, _, hbr⟩ :=
      hrtSlot_spec K fuel start j sj cfg (by rw [hplj]; exact hplan) hidj
        (fun h => (hfuel h).1)
        (fun hty => by
          rcases (hfuel hty).2 with h | h
          · exact Or.inl (le_trans h hlej)
          · exact Or.inr h)
    refine ⟨sj, sj1, cfg, seg, hrunj, ?_, by rw [hplj]; exact hplan, hidj, hid1, hlog1, hon, hbr⟩
    rw [hrtLoop_add K fuel start j 1 0 s, hrunj]
    simp [hrtLoop, hrun1]

/-- C4, amended. For a HARD_RT slot whose handle is non-NULL after
`xTaskCreate`, let `D = (xMajorFrameStartTick + ulEndTimeTicks) mod 2 ^ tickBits`
be the deadline as the code computes it in `TickType_t`; it is the sum
`xMajorFrameStartTick + ulEndTimeTicks` itself whenever this sum is
representable.  For every kernel the activation is logged as TASK_SPAWN
followed by exactly one of TASK_COMPLETE or DEADLINE_MISS; a DEADLINE_MISS
carries a tick `≥ D`; a TASK_COMPLETE carries a tick `< D + 1` when the clock
moves only through the delays of the dispatcher and the monitor loop is entered
at a tick `≤ D`. -/
theorem activation_terminal_tick (K : Kernel) (fuel start i : Nat) (cfg : TimelineTaskConfig_t)
    (s3 : Sys) (m3 : ManagedTask_t)
    (hm : s3.xManagedTasks[i]? = some m3) (hcfg : m3.pxConfig = some cfg)
    (hh : m3.xHandle ≠ none) (hidle : Idle s3.active) (hpos : 0 < fuel)
    (hfuel : (start + cfg.ulEndTimeTicks) % 2 ^ K.tickBits < s3.tick + fuel) :
    (∃ s1 t1 ev t2,
      hrtAfterCreate K fuel start i cfg s3 = some s1 ∧
      traceOf s1.log = traceOf s3.log ++
        [(TRACE_EVENT_TASK_SPAWN, cfg.pcName, t1), (ev, cfg.pcName, t2)] ∧
      ((ev = TRACE_EVENT_TASK_COMPLETE ∧
          (ExactClock K → s3.tick ≤ (start + cfg.ulEndTimeTicks) % 2 ^ K.tickBits →
            t2 < (start + cfg.ulEndTimeTicks) % 2 ^ K.tickBits + 1)) ∨
        (ev = TRACE_EVENT_DEADLINE_MISS ∧
          (start + cfg.ulEndTimeTicks) % 2 ^ K.tickBits ≤ t2))) ∧
    (start + cfg.ulEndTimeTicks < 2 ^ K.tickBits →
      (start + cfg.ulEndTimeTicks) % 2 ^ K.tickBits = start + cfg.ulEndTimeTicks) := by
  obtain ⟨s1, seg, hrun, hlog, _, _, _, _, _, _, _, _, _, _, hsp⟩ :=
    hrtAfterCreate_spec K fuel start i cfg s3 m3 hm hcfg hidle hpos hfuel
  obtain ⟨t1, mid, ev, t2, a0, a1, a2, hseg, _, _, _, htr, _, _, hev⟩ := hsp hh
  refine ⟨⟨s1, t1, ev, t2, hrun, by rw [hlog, hseg]; simp [traceOf, htr], ?_⟩,
    fun h => Nat.mod_eq_of_lt h⟩
  rcases hev with ⟨h1, _, h3⟩ | ⟨h1, h2, _⟩
  · exact Or.inl ⟨h1, fun hx hle => Nat.lt_succ_of_le (h3 hx hle)⟩
  · exact Or.inr ⟨h1, h2⟩

theorem monitorLoop_late (K : Kernel) (i D : Nat) (cfg : TimelineTaskConfig_t) (fuel : Nat)
    (s : Sys) (m : ManagedTask_t)
    (hm : s.xManagedTasks[i]? = some m) (hact : m.xIsActive ≠ 0) (hcfg : m.pxConfig = some cfg)
    (hpos : 0 < fuel) (hD : D ≤ s.tick) :
    ∃ s1 mid ev t,
      monitorLoop K i D fuel s = some s1 ∧
      s1.log = s.log ++ mid ++ [{ call := .vTraceLog ev cfg.pcName t, active := s1.active }] ∧
      traceOf mid = [] ∧ createsOf mid = [] ∧ delaysOf mid = [] ∧
      statesOf mid = [(m.xHandle, K.state s.calls)] ∧
      (K.state s.calls = eTaskState.eDeleted →
        ev = TRACE_EVENT_TASK_COMPLETE ∧ killsOf mid = []) ∧
      (K.state s.calls ≠ eTaskState.eDeleted →
        ev = TRACE_EVENT_DEADLINE_MISS ∧ killsOf mid = [m.xHandle]) := by
  obtain ⟨fuel, rfl⟩ : ∃ f, fuel = f + 1 := ⟨fuel - 1, by omega⟩
  by_cases hdel : K.state s.calls = eTaskState.eDeleted
  · refine ⟨vTraceLog K TRACE_EVENT_TASK_COMPLETE cfg.pcName (s.tick + K.elapse (s.calls + 1))
        (xTaskGetTickCount K (setTask (eTaskGetState K m.xHandle s).2 i
          (fun m => { m with xIsActive := pdFALSE }))).2,
      [{ call := .eTaskGetState m.xHandle (K.state s.calls), active := s.active },
        { call := .xTaskGetTickCount (s.tick + K.elapse (s.calls + 1)),
          active := s.active.modify (fun _ => false) i }],
      TRACE_EVENT_TASK_COMPLETE, s.tick + K.elapse (s.calls + 1), ?_, ?_, by simp [traceOf],
      by simp [createsOf], by simp [delaysOf], by simp [statesOf],
      fun _ => ⟨rfl, by simp [killsOf]⟩, fun h => absurd hdel h⟩
    · simp only [monitorLoop, hm, hact, hcfg, eTaskGetState, hdel, xTaskGetTickCount]
      simp
    · simp [active_setFlag]
  · have hlate : D ≤ s.tick + K.elapse (s.calls + 1) := by omega
    refine ⟨vTraceLog K TRACE_EVENT_DEADLINE_MISS cfg.pcName
        (s.tick + K.elapse (s.calls + 1) + K.elapse (s.calls + 1 + 1 + 1))
        (xTaskGetTickCount K (setTask (vTaskDelete m.xHandle
          (xTaskGetTickCount K (eTaskGetState K m.xHandle s).2).2) i
          (fun m => { m with xIsActive := pdFALSE }))).2,
      [{ call := .eTaskGetState m.xHandle (K.state s.calls), active := s.active },
        { call := .xTaskGetTickCount (s.tick + K.elapse (s.calls + 1)), active := s.active },
        { call := .vTaskDelete m.xHandle, active := s.active },
        { call := .xTaskGetTickCount
            (s.tick + K.elapse (s.calls + 1) + K.elapse (s.calls + 1 + 1 + 1)),
          active := s.active.modify (fun _ => false) i }],
      TRACE_EVENT_DEADLINE_MISS,
      s.tick + K.elapse (s.calls + 1) + K.elapse (s.calls + 1 + 1 + 1), ?_, ?_,
      by simp [traceOf], by simp [createsOf], by simp [delaysOf], by simp [statesOf],
      fun h => absurd h hdel, fun _ => ⟨rfl, by simp [killsOf]⟩⟩
    · simp only [monitorLoop, hm, hact, hcfg, eTaskGetState, hdel, xTaskGetTickCount]
      simp [hlate, vTaskDelete]
    · simp [active_setFlag]

theorem hrtAfterCreate_late (K : Kernel) (fuel start i : Nat) (cfg : TimelineTaskConfig_t)
    (s3 : Sys) (m3 : ManagedTask_t)
    (hm : s3.xManagedTasks[i]? = some m3) (hcfg : m3.pxConfig = some cfg) (hpos : 0 < fuel)
    (hlate : (start + cfg.ulEndTimeTicks) % 2 ^ K.tickBits ≤ s3.tick) :
    ∃ s1 rest,
      hrtAfterCreate K fuel start i cfg s3 = some s1 ∧
      s1.log = s3.log ++ rest ∧ createsOf rest = [] ∧ delaysOf rest = [] ∧
      (m3.xHandle = none →
        ∃ t, traceOf rest = [(TRACE_EVENT_TASK_CREATE_FAILED, cfg.pcName, t)] ∧
          killsOf rest = [] ∧ statesOf rest = []) ∧
      (m3.xHandle ≠ none →
        statesOf rest = [(m3.xHandle, K.state (s3.calls + 2))] ∧
        ∃ t1 t2,
          (K.state (s3.calls + 2) = eTaskState.eDeleted →
            traceOf rest = [(TRACE_EVENT_TASK_SPAWN, cfg.pcName, t1),
              (TRACE_EVENT_TASK_COMPLETE, cfg.pcName, t2)] ∧ killsOf rest = []) ∧
          (K.state (s3.calls + 2) ≠ eTaskState.eDeleted →
            traceOf rest = [(TRACE_EVENT_TASK_SPAWN, cfg.pcName, t1),
              (TRACE_EVENT_DEADLINE_MISS, cfg.pcName, t2)] ∧ killsOf rest = [m3.xHandle])) := by
  cases hh : m3.xHandle with
  | none =>
    refine ⟨vTraceLog K TRACE_EVENT_TASK_CREATE_FAILED cfg.pcName (s3.tick + K.elapse s3.calls)
        (xTaskGetTickCount K s3).2,
      [⟨.xTaskGetTickCount (s3.tick + K.elapse s3.calls), s3.active⟩,
        ⟨.vTraceLog TRACE_EVENT_TASK_CREATE_FAILED cfg.pcName (s3.tick + K.elapse s3.calls),
          s3.active⟩], ?_, by simp, by simp [createsOf], by simp [delaysOf], ?_, by simp⟩
    · simp [hrtAfterCreate, hm, hh, xTaskGetTickCount]
    · intro _
      exact ⟨s3.tick + K.elapse s3.calls, by simp [traceOf], by simp [killsOf],
        by simp [statesOf]⟩
  | some h =>
    have hm6 : (setTask (vTraceLog K TRACE_EVENT_TASK_SPAWN cfg.pcName
          (s3.tick + K.elapse s3.calls) (xTaskGetTickCount K s3).2) i
          (fun m => { m with xIsActive := pdTRUE })).xManagedTasks[i]?
        = some { m3 with xIsActive := pdTRUE } := by
      simp [List.getElem?_modify_eq, hm]
    obtain ⟨s1, mid, ev, t, hrun, hlog, htr, hcr, hdl, hst, hdone, hmiss⟩ :=
      monitorLoop_late K i ((start + cfg.ulEndTimeTicks) % 2 ^ K.tickBits) cfg fuel _
        { m3 with xIsActive := pdTRUE } hm6 (by simp) hcfg hpos (by simp; omega)
    simp only [setTask_calls, vTraceLog_calls, xTaskGetTickCount_calls, hh] at hst hdone hmiss
    refine ⟨s1, [⟨.xTaskGetTickCount (s3.tick + K.elapse s3.calls), s3.active⟩,
        ⟨.vTraceLog TRACE_EVENT_TASK_SPAWN cfg.pcName (s3.tick + K.elapse s3.calls), s3.active⟩]
        ++ mid ++ [⟨.vTraceLog ev cfg.pcName t, s1.active⟩], ?_, ?_, by simp [createsOf, hcr],
      by simp [delaysOf, hdl], fun hnone => absurd hnone (by simp), ?_⟩
    · simp only [hrtAfterCreate, hm, hh]
      simpa [xTaskGetTickCount] using hrun
    · rw [hlog]; simp
    · intro _
      refine ⟨by simp [statesOf, hst], s3.tick + K.elapse s3.calls, t, ?_, ?_⟩
      · intro hd
        obtain ⟨h1, h2⟩ := hdone hd
        exact ⟨by simp [traceOf, htr, h1], by simp [killsOf, h2]⟩
      · intro hd
        obtain ⟨h1, h2⟩ := hmiss hd
        exact ⟨by simp [traceOf, htr, h1], by simp [killsOf, h2]⟩

/-- C5, amended. Let the tick at the end of the wait for the start time have
reached the deadline `(xMajorFrameStartTick + ulEndTimeTicks) mod 2 ^ tickBits`
that the code computes (as it has, in particular, when it has reached
`xMajorFrameStartTick + ulEndTimeTicks`).  The dispatcher still calls
`xTaskCreate` once, and makes no delay afterwards.  If the handle of the slot
is then NULL it logs TASK_CREATE_FAILED and queries no task state.  Otherwise
it logs TASK_SPAWN and calls `eTaskGetState` exactly once, on that handle: when
the answer is `eDeleted` the activation ends with TASK_COMPLETE and no
`vTaskDelete`; when the answer is anything else it ends with `vTaskDelete` of
the handle and DEADLINE_MISS. -/
theorem hrtSlot_past_deadline (K : Kernel) (fuel start i : Nat) (s : Sys) (m : ManagedTask_t)
    (cfg : TimelineTaskConfig_t)
    (hm : s.xManagedTasks[i]? = some m) (hcfg : m.pxConfig = some cfg)
    (hty : cfg.xTaskType = .TASK_TYPE_HARD_RT) (hpos : 0 < fuel)
    (hlate : (start + cfg.ulEndTimeTicks) % 2 ^ K.tickBits ≤ (hrtWait K start cfg s).tick) :
    ∃ s1 pre rest r h3,
      hrtSlot K fuel start i s = some s1 ∧
      s1.log = s.log ++ pre ++ rest ∧
      createsOf pre = [(cfg.pcName, r)] ∧ traceOf pre = [] ∧
      (∀ h, r = some h → h3 = some h) ∧ (r = none → h3 = m.xHandle) ∧
      createsOf rest = [] ∧ delaysOf rest = [] ∧
      (h3 = none →
        ∃ t, traceOf rest = [(TRACE_EVENT_TASK_CREATE_FAILED, cfg.pcName, t)] ∧
          killsOf rest = [] ∧ statesOf rest = []) ∧
      (h3 ≠ none →
        statesOf rest = [(h3, K.state ((hrtWait K start cfg s).calls + 3))] ∧
        ∃ t1 t2,
          (K.state ((hrtWait K start cfg s).calls + 3) = eTaskState.eDeleted →
            traceOf rest = [(TRACE_EVENT_TASK_SPAWN, cfg.pcName, t1),
              (TRACE_EVENT_TASK_COMPLETE, cfg.pcName, t2)] ∧ killsOf rest = []) ∧
          (K.state ((hrtWait K start cfg s).calls + 3) ≠ eTaskState.eDeleted →
            traceOf rest = [(TRACE_EVENT_TASK_SPAWN, cfg.pcName, t1),
              (TRACE_EVENT_DEADLINE_MISS, cfg.pcName, t2)] ∧ killsOf rest = [h3])) := by
  obtain ⟨pre, hwlog, _, hwtr, hwcr, _, hwtab, _, _, _, _⟩ := hrtWait_spec K start cfg s
  obtain ⟨hslog, _, _, hstick, _, m3, hm3, hcfg3, hok, hstale⟩ :=
    hrtSpawn_spec K i cfg (hrtWait K start cfg s) m (by rw [hwtab]; exact hm)
  have hcalls : (hrtSpawn K i cfg (hrtWait K start cfg s)).calls
      = (hrtWait K start cfg s).calls + 1 := by
    cases hc : K.create (hrtWait K start cfg s).calls <;> simp [hrtSpawn, xTaskCreate, hc]
  obtain ⟨s1, rest, hrun, hlog, hcr, hdl, hfail, hsp⟩ :=
    hrtAfterCreate_late K fuel start i cfg _ m3 hm3 (by rw [hcfg3, hcfg]) hpos
      (by rw [hstick]; exact hlate)
  rw [hcalls] at hsp
  refine ⟨s1, pre ++ [⟨.xTaskCreate cfg.pvTaskCode cfg.pcName K.configMINIMAL_STACK_SIZE
      (K.tskIDLE_PRIORITY + 2) (K.create (hrtWait K start cfg s).calls),
      (hrtWait K start cfg s).active⟩], rest, K.create (hrtWait K start cfg s).calls, m3.xHandle,
    ?_, ?_, by simp [hwcr, createsOf], by simp [hwtr, traceOf], hok, hstale, hcr, hdl, hfail, hsp⟩
  · simp [hrtSlot, hm, hcfg, hty, hrun]
  · rw [hlog, hslog, hwlog]; simp

/-! ## Major frames -/

theorem frameStarts_append (a b : List Obs) :
    frameStarts (a ++ b) = frameStarts a ++ frameStarts b := by
  simp [frameStarts]

theorem frameStarts_eq_nil {l : List Obs}
    (h : ∀ r ∈ traceOf l, r.1 ≠ TRACE_EVENT_MAJOR_FRAME_START) : frameStarts l = [] := by
  unfold frameStarts
  rw [List.filterMap_eq_nil_iff]
  intro r hr
  simp [h r hr]

theorem frameTail_spec (K : Kernel) (start : Nat) (s : Sys) :
    frameStarts (frameTail K start s).log = frameStarts s.log ∧
      (frameTail K start s).xManagedTasks = s.xManagedTasks ∧
      (frameTail K start s).uxManagedTasksCount = s.uxManagedTasksCount ∧
      (ExactClock K →
        (frameTail K start s).tick = max s.tick ((start + MAJOR_FRAME_DURATION_TICKS K) % 2 ^ K.tickBits)) := by
  by_cases hlt : s.tick + K.elapse s.calls + K.elapse (s.calls + 1 + 1)
      < (start + MAJOR_FRAME_DURATION_TICKS K) % 2 ^ K.tickBits
  · refine ⟨?_, by simp [frameTail, hlt], by simp [frameTail, hlt], ?_⟩
    · simp only [frameTail, xTaskGetTickCount_fst, vTraceLog_tick, xTaskGetTickCount_tick,
        vTraceLog_calls, xTaskGetTickCount_calls, hlt, if_true]
      simp [frameStarts, traceOf]
    · intro hx
      simp only [hx s.calls, hx (s.calls + 1 + 1), Nat.add_zero] at hlt
      simp only [frameTail, xTaskGetTickCount_fst, vTraceLog_tick, xTaskGetTickCount_tick,
        vTraceLog_calls, xTaskGetTickCount_calls, vTaskDelay_tick, vTaskDelay_calls, hx _,
        Nat.add_zero, hlt, if_true]
      rw [max_eq_right (le_of_lt hlt)]
      omega
  · refine ⟨?_, by simp [frameTail, hlt], by simp [frameTail, hlt], ?_⟩
    · simp only [frameTail, xTaskGetTickCount_fst, vTraceLog_tick, xTaskGetTickCount_tick,
        vTraceLog_calls, xTaskGetTickCount_calls, hlt, if_false]
      simp [frameStarts, traceOf]
    · intro hx
      simp only [hx s.calls, hx (s.calls + 1 + 1), Nat.add_zero] at hlt
      simp only [frameTail, xTaskGetTickCount_fst, vTraceLog_tick, xTaskGetTickCount_tick,
        vTraceLog_calls, xTaskGetTickCount_calls, hx _, Nat.add_zero, hlt, if_false]
      rw [max_eq_left (by omega)]

theorem majorFrame_spec (K : Kernel) (fuel : Nat) (s : Sys) (hx : ExactClock K)
    (hslots : ∀ j, j < s.uxManagedTasksCount → ∃ cfg, s.plan[j]? = some (some cfg) ∧
      (cfg.xTaskType = .TASK_TYPE_HARD_RT →
        cfg.ulEndTimeTicks < fuel ∧ cfg.ulStartTimeTicks ≤ MAJOR_FRAME_DURATION_TICKS K ∧
        cfg.ulEndTimeTicks ≤ MAJOR_FRAME_DURATION_TICKS K))
    (hidle : Idle s.active)
    (hrange : s.tick + MAJOR_FRAME_DURATION_TICKS K < 2 ^ K.tickBits) :
    ∃ s1, majorFrame K fuel s = some s1 ∧
      frameStarts s1.log = frameStarts s.log ++ [s.tick] ∧
      s1.tick = s.tick + MAJOR_FRAME_DURATION_TICKS K ∧
      Idle s1.active ∧ s1.plan = s.plan ∧
      s1.uxManagedTasksCount = s.uxManagedTasksCount := by
  have hplan2 : (vTraceLog K TRACE_EVENT_MAJOR_FRAME_START "Scheduler" (s.tick + K.elapse s.calls)
      (xTaskGetTickCount K s).2).plan = s.plan := plan_of_tasks (by simp)
  obtain ⟨s3, seg, hrun, hlog, hid, hpl, hcnt, hle, hnf, hex⟩ :=
    hrtLoop_spec K fuel (s.tick + K.elapse s.calls)
      (vTraceLog K TRACE_EVENT_MAJOR_FRAME_START "Scheduler" (s.tick + K.elapse s.calls)
        (xTaskGetTickCount K s).2).uxManagedTasksCount 0
      (vTraceLog K TRACE_EVENT_MAJOR_FRAME_START "Scheduler" (s.tick + K.elapse s.calls)
        (xTaskGetTickCount K s).2)
      (fun j _ h => by
        rw [hplan2]
        obtain ⟨cfg, h1, h2⟩ := hslots j (by simpa using h)
        exact ⟨cfg, h1, fun hty => ⟨(h2 hty).1, Or.inl (by simp)⟩⟩)
      (by simpa using hidle)
  obtain ⟨htfs, httab, htcnt, htex⟩ := frameTail_spec K (s.tick + K.elapse s.calls) s3
  refine ⟨frameTail K (s.tick + K.elapse s.calls) s3, ?_, ?_, ?_, ?_, ?_, ?_⟩
  · simp only [majorFrame, xTaskGetTickCount_fst]
    rw [hrun]
  · rw [htfs, hlog]
    simp only [vTraceLog_log, xTaskGetTickCount_log, frameStarts_append,
      frameStarts_eq_nil hnf, List.append_nil]
    simp [frameStarts, traceOf, hx s.calls]
  · have h3 := hex hx (MAJOR_FRAME_DURATION_TICKS K)
      (fun j cfg _ h hp hty => by
        rw [hplan2] at hp
        obtain ⟨cfg1, h1, h2⟩ := hslots j (by simpa using h)
        rw [hp] at h1
        cases h1
        exact (h2 hty).2)
    rw [htex hx]
    simp only [vTraceLog_tick, xTaskGetTickCount_tick, hx s.calls, Nat.add_zero] at h3 hle ⊢
    rw [Nat.mod_eq_of_lt hrange]
    have h4 : s3.tick ≤ s.tick + MAJOR_FRAME_DURATION_TICKS K := by
      rcases le_max_iff.mp h3 with h | h <;> omega
    exact max_eq_right h4
  · have : (frameTail K (s.tick + K.elapse s.calls) s3).active = s3.active := by
      simp [Sys.active, httab]
    rw [this]; exact hid
  · rw [plan_of_tasks httab, hpl, hplan2]
  · rw [htcnt, hcnt]; simp

theorem range_succ_map_frame (n a M : Nat) :
    (List.range (n + 1)).map (fun c => a + c * M)
      = a :: (List.range n).map (fun c => a + M + c * M) := by
  rw [List.range_succ_eq_map]
  simp only [List.map_cons, List.map_map, Nat.zero_mul, Nat.add_zero, List.cons.injEq, true_and]
  apply List.map_congr_left
  intro c _
  simp only [Function.comp, Nat.succ_eq_add_one, Nat.add_mul, Nat.one_mul]
  omega

theorem prvSchedulerTask_spec (K : Kernel) (fuel : Nat) (hx : ExactClock K) :
    ∀ (cycles : Nat) (s : Sys),
      (∀ j, j < s.uxManagedTasksCount → ∃ cfg, s.plan[j]? = some (some cfg) ∧
        (cfg.xTaskType = .TASK_TYPE_HARD_RT →
          cfg.ulEndTimeTicks < fuel ∧ cfg.ulStartTimeTicks ≤ MAJOR_FRAME_DURATION_TICKS K ∧
          cfg.ulEndTimeTicks ≤ MAJOR_FRAME_DURATION_TICKS K)) →
      Idle s.active →
      s.tick + cycles * MAJOR_FRAME_DURATION_TICKS K < 2 ^ K.tickBits →
      ∃ s1, prvSchedulerTask K fuel cycles s = some s1 ∧
        frameStarts s1.log = frameStarts s.log ++
          (List.range cycles).map (fun c => s.tick + c * MAJOR_FRAME_DURATION_TICKS K)
  | 0, s, _, _, _ => ⟨s, rfl, by simp⟩
  | cycles + 1, s, hslots, hidle, hrange => by
    have hmul : (cycles + 1) * MAJOR_FRAME_DURATION_TICKS K
        = cycles * MAJOR_FRAME_DURATION_TICKS K + MAJOR_FRAME_DURATION_TICKS K := by
      rw [Nat.add_mul, Nat.one_mul]
    obtain ⟨s1, hrun1, hfs1, htk1, hid1, hpl1, hcnt1⟩ :=
      majorFrame_spec K fuel s hx hslots hidle (by omega)
    obtain ⟨s2, hrun2, hfs2⟩ := prvSchedulerTask_spec K fuel hx cycles s1
      (fun j h => by rw [hpl1]; exact hslots j (by rw [← hcnt1]; exact h)) hid1
      (by rw [htk1]; omega)
    refine ⟨s2, by simp [prvSchedulerTask, hrun1, hrun2], ?_⟩
    rw [hfs2, hfs1, htk1, range_succ_map_frame]
    simp

/-! ## Initialisation establishes the loop invariant -/

theorem forall_mem_modify (P : ManagedTask_t → Prop) (f : ManagedTask_t → ManagedTask_t)
    (hf : ∀ m, P (f m)) (l : List ManagedTask_t) :
    ∀ (i : Nat), (∀ m ∈ l, P m) → ∀ m ∈ l.modify f i, P m := by
  induction l with
  | nil => intro i _ m hm; simp at hm
  | cons a l ih =>
    intro i h m hm
    cases i with
    | zero =>
      simp only [List.modify_zero_cons, List.mem_cons] at hm
      rcases hm with hm | hm
      · rw [hm]; exact hf a
      · exact h m (List.mem_cons_of_mem _ hm)
    | succ i =>
      simp only [List.modify_succ_cons, List.mem_cons] at hm
      rcases hm with hm | hm
      · rw [hm]; exact h a (List.mem_cons_self _ _)
      · exact ih i (fun x hx => h x (List.mem_cons_of_mem _ hx)) m hm

theorem initLoop_spec (tasks : List TimelineTaskConfig_t) :
    ∀ (n i : Nat) (s : Sys),
      (∀ m ∈ s.xManagedTasks, m.xIsActive = 0) → i + n ≤ s.xManagedTasks.length →
      (∀ m ∈ (initLoop tasks n i s).xManagedTasks, m.xIsActive = 0) ∧
      (initLoop tasks n i s).xManagedTasks.length = s.xManagedTasks.length ∧
      (∀ j, i ≤ j → j < i + n → (initLoop tasks n i s).plan[j]? = some (tasks[j]?)) ∧
      (∀ j, j < i → (initLoop tasks n i s).plan[j]? = s.plan[j]?) ∧
      (initLoop tasks n i s).uxManagedTasksCount = s.uxManagedTasksCount ∧
      (initLoop tasks n i s).tick = s.tick ∧
      (initLoop tasks n i s).calls = s.calls ∧
      (initLoop tasks n i s).log = s.log
  | 0, i, s, h, _ => ⟨h, rfl, fun j h1 h2 => by omega, fun _ _ => rfl, rfl, rfl, rfl, rfl⟩
  | n + 1, i, s, h, hlen => by
    have hstep := initLoop_spec tasks n (i + 1)
      (setTask s i (fun _ => { pxConfig := tasks[i]?, xHandle := none, xIsActive := pdFALSE }))
      (forall_mem_modify (fun m => m.xIsActive = 0) _ (fun _ => rfl) s.xManagedTasks i h)
      (by simp; omega)
    obtain ⟨h1, h2, h3, h4, h5, h6, h7, h8⟩ := hstep
    refine ⟨h1, by simpa using h2, ?_, ?_, h5, h6, h7, h8⟩
    · intro j hj1 hj2
      by_cases hji : j = i
      · subst hji
        have := h4 j (by omega)
        simp only [initLoop]
        rw [this]
        have hlt : j < s.xManagedTasks.length := by omega
        simp [Sys.plan, List.getElem?_modify_eq, List.getElem?_eq_getElem hlt]
      · exact h3 j (by omega) (by omega)
    · intro j hj
      have := h4 j (by omega)
      simp only [initLoop]
      rw [this]
      simp [Sys.plan, List.getElem?_modify_ne _ _ (Nat.ne_of_gt hj)]

theorem idle_of_flags {s : Sys} (h : ∀ m ∈ s.xManagedTasks, m.xIsActive = 0) : Idle s.active := by
  intro b hb
  simp only [Sys.active, List.mem_map] at hb
  obtain ⟨m, hm, rfl⟩ := hb
  simp [ManagedTask_t.active, h m hm]

theorem initWorker_spec (K : Kernel) (s3 : Sys) :
    (initWorker K s3).xManagedTasks = s3.xManagedTasks ∧
      (initWorker K s3).uxManagedTasksCount = s3.uxManagedTasksCount ∧
      (initWorker K s3).tick = s3.tick ∧
      frameStarts (initWorker K s3).log = frameStarts s3.log := by
  cases hc : K.create (s3.calls + 1) <;>
    simp [initWorker, vTraceInit, xTaskCreate, hc, frameStarts, traceOf]

theorem xTimelineSchedulerInit_spec (K : Kernel) (cfg : TimelineConfig_t)
    (tasks : List TimelineTaskConfig_t) (s0 : Sys)
    (hts : cfg.pxTasks = some tasks) (hn : cfg.uxNumTasks ≤ MAX_TASKS) :
    (xTimelineSchedulerInit K (some cfg) s0).1 = pdPASS ∧
      (xTimelineSchedulerInit K (some cfg) s0).2.uxManagedTasksCount = cfg.uxNumTasks ∧
      (∀ j, j < cfg.uxNumTasks →
        (xTimelineSchedulerInit K (some cfg) s0).2.plan[j]? = some (tasks[j]?)) ∧
      Idle (xTimelineSchedulerInit K (some cfg) s0).2.active ∧
      (xTimelineSchedulerInit K (some cfg) s0).2.tick = s0.tick ∧
      frameStarts (xTimelineSchedulerInit K (some cfg) s0).2.log = frameStarts s0.log := by
  have hn2 : ¬ cfg.uxNumTasks > MAX_TASKS := by omega
  obtain ⟨h1, _, h3, _, h5, h6, _, h8⟩ := initLoop_spec tasks cfg.uxNumTasks 0
    { s0 with xSchedulerConfig := cfg, uxManagedTasksCount := cfg.uxNumTasks,
              xManagedTasks := List.replicate MAX_TASKS
                { pxConfig := none, xHandle := none, xIsActive := 0 } }
    (by intro m hm; simp only [List.mem_replicate] at hm; rw [hm.2])
    (by simpa using hn)
  obtain ⟨w1, w2, w3, w4⟩ := initWorker_spec K (initLoop tasks cfg.uxNumTasks 0
    { s0 with xSchedulerConfig := cfg, uxManagedTasksCount := cfg.uxNumTasks,
              xManagedTasks := List.replicate MAX_TASKS
                { pxConfig := none, xHandle := none, xIsActive := 0 } })
  have hres : xTimelineSchedulerInit K (some cfg) s0
      = (pdPASS, initWorker K (initLoop tasks cfg.uxNumTasks 0
          { s0 with xSchedulerConfig := cfg, uxManagedTasksCount := cfg.uxNumTasks,
                    xManagedTasks := List.replicate MAX_TASKS
                      { pxConfig := none, xHandle := none, xIsActive := 0 } })) := by
    simp [xTimelineSchedulerInit, hts, hn2]
  rw [hres]
  refine ⟨rfl, by rw [w2, h5], ?_, ?_, by rw [w3, h6], by rw [w4, h8]⟩
  · intro j hj
    rw [plan_of_tasks w1]
    exact h3 j (Nat.zero_le _) (by omega)
  · apply idle_of_flags
    rw [w1]; exact h1

/-- C7, amended. Let the plan be accepted, let its array hold `uxNumTasks`
entries, and let every HARD_RT entry have start and deadline offsets of at
most `MAJOR_FRAME_DURATION_TICKS`.  Let the clock move only through the delays
of the dispatcher, each exactly as long as requested (no tick passes between
or during the other calls), and let the run end within the range of
`TickType_t`: `E0 + cycles * M < 2 ^ tickBits`.  Then for every number of
cycles the dispatcher returns from them with the ticks logged with
MAJOR_FRAME_START equal to `E0, E0 + M, E0 + 2 M, ...`, where `E0` is the tick
at which the loop is entered and `M = MAJOR_FRAME_DURATION_TICKS`. -/
theorem major_frame_starts_exact (K : Kernel) (fuel cycles : Nat) (cfg : TimelineConfig_t)
    (tasks : List TimelineTaskConfig_t) (s0 : Sys)
    (hx : ExactClock K) (hts : cfg.pxTasks = some tasks) (hn : cfg.uxNumTasks ≤ MAX_TASKS)
    (hlen : cfg.uxNumTasks ≤ tasks.length)
    (hoff : ∀ c ∈ tasks, c.xTaskType = .TASK_TYPE_HARD_RT →
      c.ulStartTimeTicks ≤ MAJOR_FRAME_DURATION_TICKS K ∧
      c.ulEndTimeTicks ≤ MAJOR_FRAME_DURATION_TICKS K)
    (hfuel : MAJOR_FRAME_DURATION_TICKS K < fuel)
    (hrange : s0.tick + cycles * MAJOR_FRAME_DURATION_TICKS K < 2 ^ K.tickBits) :
    (xTimelineSchedulerInit K (some cfg) s0).1 = pdPASS ∧
    ∃ s1, prvSchedulerTask K fuel cycles (xTimelineSchedulerInit K (some cfg) s0).2 = some s1 ∧
      frameStarts s1.log = frameStarts s0.log ++
        (List.range cycles).map (fun c => s0.tick + c * MAJOR_FRAME_DURATION_TICKS K) := by
  obtain ⟨hpass, hcnt, hpl, hid, htk, hfs⟩ := xTimelineSchedulerInit_spec K cfg tasks s0 hts hn
  obtain ⟨s1, hrun, hstarts⟩ := prvSchedulerTask_spec K fuel hx cycles
    (xTimelineSchedulerInit K (some cfg) s0).2
    (fun j hj => by
      rw [hcnt] at hj
      have hjl : j < tasks.length := by omega
      refine ⟨tasks[j], by rw [hpl j hj, List.getElem?_eq_getElem hjl], fun hty => ?_⟩
      have := hoff tasks[j] (List.getElem_mem _) hty
      omega)
    hid (by rw [htk]; exact hrange)
  exact ⟨hpass, s1, hrun, by rw [hstarts, hfs, htk]⟩

/-! ## Evaluations of the dispatcher on concrete runs -/

/-- The HRT loop over the single slot of `onePlan`, from the state left by the
initialiser. -/
theorem hrt_phase_spawn_bracket_witness :
    ∃ s1, hrtLoop (exactKernel 0) 100 0 1 0 oneState = some s1 ∧ Idle s1.active :=
  (hrt_phase_spawn_bracket (exactKernel 0) 100 0 1 oneState
    (fun j hj => by
      have h0 : j = 0 := by omega
      subst h0
      exact ⟨oneEntry, by decide, fun _ => by decide⟩)
    (Or.inl (by decide))
    (by decide)).1

set_option maxRecDepth 100000 in
/-- C4, counterexample. Plan `onePlan` (deadline offset 10).  First run, frame
start 0: the worker runs for 50 ticks at its higher priority and deletes
itself; the dispatcher then finds it deleted and logs TASK_COMPLETE with tick
50, which is not below `D + 1 = 11`.  Second run, frame start `2 ^ 32 - 6` with
a 32-bit `TickType_t` and a worker that does not finish: the deadline computed
by the code wraps to 4, so the dispatcher deletes the worker at once and logs
DEADLINE_MISS with tick `2 ^ 32 - 6`, which is below
`D = 2 ^ 32 - 6 + 10`; the clock itself never wraps in this run. -/
theorem complete_logged_after_deadline :
    ((majorFrame busyWorkerKernel 100
        (xTimelineSchedulerInit busyWorkerKernel (some onePlan) Sys.boot).2).map
        (fun s => traceOf s.log)
      = some [(TRACE_EVENT_MAJOR_FRAME_START, "Scheduler", 0),
          (TRACE_EVENT_TASK_SPAWN, "A", 0), (TRACE_EVENT_TASK_COMPLETE, "A", 50),
          (TRACE_EVENT_IDLE_START, "Scheduler", 50), (TRACE_EVENT_IDLE_END, "Scheduler", 100)] ∧
      ¬ (50 < 0 + oneEntry.ulEndTimeTicks + 1)) ∧
    ((majorFrame (exactKernel 1000000) 100 lateState).map
        (fun s => (traceOf s.log, killsOf s.log, delaysOf s.log))
      = some ([(TRACE_EVENT_MAJOR_FRAME_START, "Scheduler", 4294967290),
          (TRACE_EVENT_TASK_SPAWN, "A", 4294967290),
          (TRACE_EVENT_DEADLINE_MISS, "A", 4294967290),
          (TRACE_EVENT_IDLE_START, "Scheduler", 4294967290),
          (TRACE_EVENT_IDLE_END, "Scheduler", 4294967290)], [some 5], []) ∧
      (exactKernel 1000000).tickBits = 32 ∧
      ¬ (4294967290 + oneEntry.ulEndTimeTicks ≤ 4294967290)) := by
  decide

/-- The activation of `A` in `oneSpawned`, where `xTaskCreate` has stored
handle 3. -/
theorem activation_terminal_tick_witness :
    (∃ s1 t1 ev t2,
      hrtAfterCreate (exactKernel 0) 100 0 0 oneEntry oneSpawned = some s1 ∧
      traceOf s1.log = traceOf oneSpawned.log ++
        [(TRACE_EVENT_TASK_SPAWN, oneEntry.pcName, t1), (ev, oneEntry.pcName, t2)] ∧
      ((ev = TRACE_EVENT_TASK_COMPLETE ∧
          (ExactClock (exactKernel 0) →
            oneSpawned.tick ≤ (0 + oneEntry.ulEndTimeTicks) % 2 ^ (exactKernel 0).tickBits →
            t2 < (0 + oneEntry.ulEndTimeTicks) % 2 ^ (exactKernel 0).tickBits + 1)) ∨
        (ev = TRACE_EVENT_DEADLINE_MISS ∧
          (0 + oneEntry.ulEndTimeTicks) % 2 ^ (exactKernel 0).tickBits ≤ t2))) ∧
    (0 + oneEntry.ulEndTimeTicks < 2 ^ (exactKernel 0).tickBits →
      (0 + oneEntry.ulEndTimeTicks) % 2 ^ (exactKernel 0).tickBits
        = 0 + oneEntry.ulEndTimeTicks) :=
  activation_terminal_tick (exactKernel 0) 100 0 0 oneEntry oneSpawned
    { pxConfig := some oneEntry, xHandle := some 3, xIsActive := 0 }
    (by decide) rfl (by decide) (by decide) (by decide) (by decide)

set_option maxRecDepth 100000 in
/-- C5, counterexample. Plan `invertedPlan` (start offset 10, deadline offset
5), frame start 0: when the dispatcher reaches the spawn step the tick is 10,
beyond the absolute deadline 5.  It calls `xTaskCreate` for `A` and logs
TASK_SPAWN; the worker being reported deleted, it then logs TASK_COMPLETE, and
no DEADLINE_MISS appears in the frame. -/
theorem spawn_after_deadline :
    (hrtWait (exactKernel 0) 0 invertedEntry
        (vTraceLog (exactKernel 0) TRACE_EVENT_MAJOR_FRAME_START "Scheduler" 0
          (xTaskGetTickCount (exactKernel 0) invertedState).2)).tick = 10 ∧
      0 + invertedEntry.ulEndTimeTicks ≤ 10 ∧
      (majorFrame (exactKernel 0) 100 invertedState).map
          (fun s => (traceOf s.log, createsOf s.log))
        = some ([(TRACE_EVENT_MAJOR_FRAME_START, "Scheduler", 0),
            (TRACE_EVENT_TASK_SPAWN, "A", 10), (TRACE_EVENT_TASK_COMPLETE, "A", 10),
            (TRACE_EVENT_IDLE_START, "Scheduler", 10), (TRACE_EVENT_IDLE_END, "Scheduler", 100)],
          [("Scheduler", some 1), ("A", some 6)]) := by
  decide

/-- Slot 0 of `invertedPlan` in a frame that starts at tick 0: the wait ends
at tick 10, beyond the deadline 5. -/
theorem hrtSlot_past_deadline_witness :
    ∃ s1 pre rest r h3,
      hrtSlot (exactKernel 0) 100 0 0 invertedState = some s1 ∧
      s1.log = invertedState.log ++ pre ++ rest ∧
      createsOf pre = [(invertedEntry.pcName, r)] ∧ traceOf pre = [] ∧
      (∀ h, r = some h → h3 = some h) ∧ (r = none → h3 = none) ∧
      createsOf rest = [] ∧ delaysOf rest = [] ∧
      (h3 = none →
        ∃ t, traceOf rest = [(TRACE_EVENT_TASK_CREATE_FAILED, invertedEntry.pcName, t)] ∧
          killsOf rest = [] ∧ statesOf rest = []) ∧
      (h3 ≠ none →
        statesOf rest = [(h3, (exactKernel 0).state
          ((hrtWait (exactKernel 0) 0 invertedEntry invertedState).calls + 3))] ∧
        ∃ t1 t2,
          ((exactKernel 0).state
              ((hrtWait (exactKernel 0) 0 invertedEntry invertedState).calls + 3)
              = eTaskState.eDeleted →
            traceOf rest = [(TRACE_EVENT_TASK_SPAWN, invertedEntry.pcName, t1),
              (TRACE_EVENT_TASK_COMPLETE, invertedEntry.pcName, t2)] ∧ killsOf rest = []) ∧
          ((exactKernel 0).state
              ((hrtWait (exactKernel 0) 0 invertedEntry invertedState).calls + 3)
              ≠ eTaskState.eDeleted →
            traceOf rest = [(TRACE_EVENT_TASK_SPAWN, invertedEntry.pcName, t1),
              (TRACE_EVENT_DEADLINE_MISS, invertedEntry.pcName, t2)] ∧ killsOf rest = [h3])) :=
  hrtSlot_past_deadline (exactKernel 0) 100 0 0 invertedState
    { pxConfig := some invertedEntry, xHandle := none, xIsActive := 0 } invertedEntry
    (by decide) rfl rfl (by decide) (by decide)

set_option maxRecDepth 100000 in
/-- C6. Plan `onePlan`, two cycles.  In the first cycle `xTaskCreate` stores
handle 5 for `A`.  In the second cycle `xTaskCreate` fails and stores nothing;
the slot still holds handle 5, so the test `xHandle == NULL` is false: the
dispatcher logs TASK_SPAWN and TASK_COMPLETE for `A` at tick 100 and no
TASK_CREATE_FAILED. -/
theorem create_failure_second_cycle :
    (prvSchedulerTask failLaterKernel 100 2
        (xTimelineSchedulerInit failLaterKernel (some onePlan) Sys.boot).2).map
        (fun s => (createsOf s.log, traceOf s.log))
      = some ([("Scheduler", some 1), ("A", some 5), ("A", none)],
          [(TRACE_EVENT_MAJOR_FRAME_START, "Scheduler", 0),
            (TRACE_EVENT_TASK_SPAWN, "A", 0), (TRACE_EVENT_TASK_COMPLETE, "A", 0),
            (TRACE_EVENT_IDLE_START, "Scheduler", 0), (TRACE_EVENT_IDLE_END, "Scheduler", 100),
            (TRACE_EVENT_MAJOR_FRAME_START, "Scheduler", 100),
            (TRACE_EVENT_TASK_SPAWN, "A", 100), (TRACE_EVENT_TASK_COMPLETE, "A", 100),
            (TRACE_EVENT_IDLE_START, "Scheduler", 100),
            (TRACE_EVENT_IDLE_END, "Scheduler", 200)]) := by
  decide

set_option maxRecDepth 100000 in
/-- C7, counterexample. Three accepted plans and runs in which every delay
lasts exactly as requested.

* Plan `longPlan`: its HARD_RT entry has deadline offset 15 while the major
  frame lasts 10 ticks.  With a clock that moves only through the delays and a
  worker that does not finish, the first frame starts at tick 0 and the second
  at tick 15, not at tick 10.
* Plan `onePlan` (offsets 0 and 10, major frame 100): one tick passes before
  the read of the tick counter that opens the second frame (call 17; call 14
  and call 29 are the delays to the end of the frame, and no tick is added to
  them).  The frames start at ticks 0, 101 and 201: the frame start has moved
  by one tick for good.
* Plan `onePlan` entered at tick `2 ^ 32 - 6` with a 32-bit `TickType_t`: the
  end of the frame wraps to 94, the delay is skipped and the second frame
  starts at the same tick as the first. -/
theorem frame_start_drifts :
    (ExactClock slowTickKernel ∧
      (xTimelineSchedulerInit slowTickKernel (some longPlan) Sys.boot).1 = pdPASS ∧
      MAJOR_FRAME_DURATION_TICKS slowTickKernel = 10 ∧
      (prvSchedulerTask slowTickKernel 100 2
          (xTimelineSchedulerInit slowTickKernel (some longPlan) Sys.boot).2).map
          (fun s => frameStarts s.log) = some [0, 15]) ∧
    ((∀ k, k ≠ 17 → lateReadKernel.elapse k = 0) ∧
      (xTimelineSchedulerInit lateReadKernel (some onePlan) Sys.boot).1 = pdPASS ∧
      MAJOR_FRAME_DURATION_TICKS lateReadKernel = 100 ∧
      (prvSchedulerTask lateReadKernel 101 3
          (xTimelineSchedulerInit lateReadKernel (some onePlan) Sys.boot).2).map
          (fun s => [14, 17, 18, 29].map (fun k => s.log[k]?.map (fun o => o.call)))
        = some [some (.vTaskDelay 100), some (.xTaskGetTickCount 101),
            some (.vTraceLog TRACE_EVENT_MAJOR_FRAME_START "Scheduler" 101),
            some (.vTaskDelay 100)] ∧
      (prvSchedulerTask lateReadKernel 101 3
          (xTimelineSchedulerInit lateReadKernel (some onePlan) Sys.boot).2).map
          (fun s => (delaysOf s.log, frameStarts s.log))
        = some ([100, 100, 100], [0, 101, 201])) ∧
    (ExactClock (exactKernel 0) ∧ (exactKernel 0).tickBits = 32 ∧
      MAJOR_FRAME_DURATION_TICKS (exactKernel 0) = 100 ∧
      (prvSchedulerTask (exactKernel 0) 101 2 lateState).map (fun s => frameStarts s.log)
        = some [4294967290, 4294967290]) := by
  refine ⟨⟨fun _ => rfl, by decide, by decide, by decide⟩,
    ⟨fun k hk => by simp [lateReadKernel, hk], by decide, by decide, by decide, by decide⟩,
    ⟨fun _ => rfl, by decide, by decide, by decide⟩⟩

/-- Three major frames of `onePlan` under the exact 1 kHz kernel. -/
theorem major_frame_starts_exact_witness :
    (xTimelineSchedulerInit (exactKernel 0) (some onePlan) Sys.boot).1 = pdPASS ∧
    ∃ s1, prvSchedulerTask (exactKernel 0) 101 3
        (xTimelineSchedulerInit (exactKernel 0) (some onePlan) Sys.boot).2 = some s1 ∧
      frameStarts s1.log = frameStarts Sys.boot.log ++
        (List.range 3).map
          (fun c => Sys.boot.tick + c * MAJOR_FRAME_DURATION_TICKS (exactKernel 0)) :=
  major_frame_starts_exact (exactKernel 0) 101 3 onePlan [oneEntry] Sys.boot
    (fun _ => rfl) rfl (by decide) (by decide)
    (fun c hc _ => by
      rw [List.mem_singleton.mp hc]
      decide)
    (by decide) (by decide)

end Demo

namespace Sched

/-! ## `vConfigureScheduler` sorts the table into the sub-frame lists -/

theorem hrtOf_concat (l : List TimelineTaskConfig_t) (t : TimelineTaskConfig_t) (s : Nat) :
    hrtOf (l ++ [t]) s
      = if t.type = .TASK_HARD_RT ∧ t.ulSubframe_id = s then hrtOf l s ++ [t] else hrtOf l s := by
  unfold hrtOf
  rw [List.filter_append]
  by_cases h1 : t.type = .TASK_HARD_RT <;> by_cases h2 : t.ulSubframe_id = s <;>
    simp [List.filter_cons, h1, h2]

theorem srtOf_concat (l : List TimelineTaskConfig_t) (t : TimelineTaskConfig_t) (s : Nat) :
    srtOf (l ++ [t]) s
      = if t.type ≠ .TASK_HARD_RT ∧ t.ulSubframe_id = s then srtOf l s ++ [t] else srtOf l s := by
  unfold srtOf
  rw [List.filter_append]
  by_cases h1 : t.type = .TASK_HARD_RT <;> by_cases h2 : t.ulSubframe_id = s <;>
    simp [List.filter_cons, h1, h2]

theorem cellsOf_length (size : Nat) (l : List TimelineTaskConfig_t) (h : l.length ≤ size) :
    (cellsOf size l).length = size := by
  simp [cellsOf]; omega

theorem cellsOf_concat (size : Nat) (l : List TimelineTaskConfig_t) (t : TimelineTaskConfig_t)
    (h : l.length < size) :
    cellsOf size (l ++ [t]) = (cellsOf size l).set l.length (some t) := by
  unfold cellsOf
  rw [List.set_append_right _ _ (by simp)]
  obtain ⟨k, hk⟩ : ∃ k, size - l.length = k + 1 := ⟨size - l.length - 1, by omega⟩
  have hk2 : size - (l ++ [t]).length = k := by simp; omega
  rw [hk, hk2]
  simp [List.replicate_succ]

theorem placeTask_spec (pre : List TimelineTaskConfig_t) (t : TimelineTaskConfig_t)
    (subs : List SubframeSchedule_t) (N : Nat)
    (hlen : subs.length = N) (hsubs : ∀ s, s < N → subs[s]? = some (bucketOf pre s))
    (hid : t.ulSubframe_id < N)
    (hh : (hrtOf (pre ++ [t]) t.ulSubframe_id).length ≤ MAX_HRT_PER_SUBFRAME)
    (hs : (srtOf (pre ++ [t]) t.ulSubframe_id).length ≤ MAX_SRT_PER_SUBFRAME)
    (hh0 : (hrtOf pre t.ulSubframe_id).length ≤ MAX_HRT_PER_SUBFRAME)
    (hs0 : (srtOf pre t.ulSubframe_id).length ≤ MAX_SRT_PER_SUBFRAME) :
    ∃ subs1, placeTask t subs = some subs1 ∧ subs1.length = N ∧
      ∀ s, s < N → subs1[s]? = some (bucketOf (pre ++ [t]) s) := by
  have hsf := hsubs t.ulSubframe_id hid
  by_cases hty : t.type = .TASK_HARD_RT
  · have hcat : hrtOf (pre ++ [t]) t.ulSubframe_id = hrtOf pre t.ulSubframe_id ++ [t] := by
      rw [hrtOf_concat]; simp [hty]
    have hlt : (hrtOf pre t.ulSubframe_id).length < MAX_HRT_PER_SUBFRAME := by
      rw [hcat] at hh; simp at hh; omega
    have hplace : placeTask t subs = some (subs.set t.ulSubframe_id
        { bucketOf pre t.ulSubframe_id with
          pxHrtTasks := (bucketOf pre t.ulSubframe_id).pxHrtTasks.set
            (bucketOf pre t.ulSubframe_id).ucNumHrt (some t),
          ucNumHrt := ((bucketOf pre t.ulSubframe_id).ucNumHrt + 1) % 256 }) := by
      simp only [placeTask, hsf, hty, if_true]
      rw [if_pos (by simp only [bucketOf]; rw [cellsOf_length _ _ hh0]; exact hlt)]
    refine ⟨_, hplace, by simp [hlen], ?_⟩
    · intro s hs1
      by_cases hss : t.ulSubframe_id = s
      · subst hss
        rw [List.getElem?_set_eq_of_lt _ (by omega)]
        have hmod : ((hrtOf pre t.ulSubframe_id).length + 1) % 256
            = (hrtOf pre t.ulSubframe_id).length + 1 :=
          Nat.mod_eq_of_lt (by simp [MAX_HRT_PER_SUBFRAME] at hlt; omega)
        have hsrt : srtOf (pre ++ [t]) t.ulSubframe_id = srtOf pre t.ulSubframe_id := by
          rw [srtOf_concat]; simp [hty]
        simp only [bucketOf, hcat, hsrt, cellsOf_concat _ _ _ hlt, hmod, List.length_append,
          List.length_singleton]
      · rw [List.getElem?_set_ne hss, hsubs s hs1]
        have h1 : hrtOf (pre ++ [t]) s = hrtOf pre s := by rw [hrtOf_concat]; simp [hss]
        have h2 : srtOf (pre ++ [t]) s = srtOf pre s := by rw [srtOf_concat]; simp [hss]
        simp only [bucketOf, h1, h2]
  · have hcat : srtOf (pre ++ [t]) t.ulSubframe_id = srtOf pre t.ulSubframe_id ++ [t] := by
      rw [srtOf_concat]; simp [hty]
    have hlt : (srtOf pre t.ulSubframe_id).length < MAX_SRT_PER_SUBFRAME := by
      rw [hcat] at hs; simp at hs; omega
    have hplace : placeTask t subs = some (subs.set t.ulSubframe_id
        { bucketOf pre t.ulSubframe_id with
          pxSrtTasks := (bucketOf pre t.ulSubframe_id).pxSrtTasks.set
            (bucketOf pre t.ulSubframe_id).ucNumSrt (some t),
          ucNumSrt := ((bucketOf pre t.ulSubframe_id).ucNumSrt + 1) % 256 }) := by
      simp only [placeTask, hsf, hty, if_false]
      rw [if_pos (by simp only [bucketOf]; rw [cellsOf_length _ _ hs0]; exact hlt)]
    refine ⟨_, hplace, by simp [hlen], ?_⟩
    · intro s hs1
      by_cases hss : t.ulSubframe_id = s
      · subst hss
        rw [List.getElem?_set_eq_of_lt _ (by omega)]
        have hmod : ((srtOf pre t.ulSubframe_id).length + 1) % 256
            = (srtOf pre t.ulSubframe_id).length + 1 :=
          Nat.mod_eq_of_lt (by simp [MAX_SRT_PER_SUBFRAME] at hlt; omega)
        have hhrt : hrtOf (pre ++ [t]) t.ulSubframe_id = hrtOf pre t.ulSubframe_id := by
          rw [hrtOf_concat]; simp [hty]
        simp only [bucketOf, hcat, hhrt, cellsOf_concat _ _ _ hlt, hmod, List.length_append,
          List.length_singleton]
      · rw [List.getElem?_set_ne hss, hsubs s hs1]
        have h1 : hrtOf (pre ++ [t]) s = hrtOf pre s := by rw [hrtOf_concat]; simp [hss]
        have h2 : srtOf (pre ++ [t]) s = srtOf pre s := by rw [srtOf_concat]; simp [hss]
        simp only [bucketOf, h1, h2]

theorem hrtOf_take_length_le (l : List TimelineTaskConfig_t) (s : Nat) {k K : Nat} (h : k ≤ K) :
    (hrtOf (l.take k) s).length ≤ (hrtOf (l.take K) s).length :=
  ((List.take_sublist_take_left l h).filter _).length_le

theorem srtOf_take_length_le (l : List TimelineTaskConfig_t) (s : Nat) {k K : Nat} (h : k ≤ K) :
    (srtOf (l.take k) s).length ≤ (srtOf (l.take K) s).length :=
  ((List.take_sublist_take_left l h).filter _).length_le

theorem configureLoop_spec (g_cfg : TimelineConfig_t) (N : Nat)
    (hn : g_cfg.ulNumTasks ≤ g_cfg.tasks.length)
    (hid : ∀ t ∈ g_cfg.specs, t.ulSubframe_id < N)
    (hcnt : ∀ s, s < N → (hrtOf g_cfg.specs s).length ≤ MAX_HRT_PER_SUBFRAME ∧
      (srtOf g_cfg.specs s).length ≤ MAX_SRT_PER_SUBFRAME) :
    ∀ (n i : Nat) (subs : List SubframeSchedule_t),
      i + n ≤ g_cfg.ulNumTasks → subs.length = N →
      (∀ s, s < N → subs[s]? = some (bucketOf (g_cfg.tasks.take i) s)) →
      ∃ subs1, configureLoop g_cfg n i subs = some subs1 ∧ subs1.length = N ∧
        ∀ s, s < N → subs1[s]? = some (bucketOf (g_cfg.tasks.take (i + n)) s)
  | 0, i, subs, _, hlen, hsubs => ⟨subs, rfl, hlen, by simpa using hsubs⟩
  | n + 1, i, subs, hin, hlen, hsubs => by
    have hi : i < g_cfg.tasks.length := by omega
    have htake : g_cfg.tasks.take (i + 1) = g_cfg.tasks.take i ++ [g_cfg.tasks[i]] := by
      rw [List.take_succ, List.getElem?_eq_getElem hi]; rfl
    have hmem : g_cfg.tasks[i] ∈ g_cfg.specs := by
      have h1 : g_cfg.tasks[i] ∈ g_cfg.tasks.take (i + 1) := by
        rw [htake]; exact List.mem_append_right _ (List.mem_singleton.mpr rfl)
      exact (List.take_sublist_take_left g_cfg.tasks (by omega : i + 1 ≤ g_cfg.ulNumTasks)).subset h1
    have hidt := hid _ hmem
    obtain ⟨hc1, hc2⟩ := hcnt _ hidt
    obtain ⟨subs1, hplace, hlen1, hsubs1⟩ := placeTask_spec (g_cfg.tasks.take i) g_cfg.tasks[i]
      subs N hlen hsubs hidt
      (by rw [← htake]
          exact le_trans (hrtOf_take_length_le _ _ (by omega : i + 1 ≤ g_cfg.ulNumTasks)) hc1)
      (by rw [← htake]
          exact le_trans (srtOf_take_length_le _ _ (by omega : i + 1 ≤ g_cfg.ulNumTasks)) hc2)
      (le_trans (hrtOf_take_length_le _ _ (by omega : i ≤ g_cfg.ulNumTasks)) hc1)
      (le_trans (srtOf_take_length_le _ _ (by omega : i ≤ g_cfg.ulNumTasks)) hc2)
    obtain ⟨subs2, hrun, hlen2, hsubs2⟩ := configureLoop_spec g_cfg N hn hid hcnt n (i + 1) subs1
      (by omega) hlen1 (by rw [htake]; exact hsubs1)
    refine ⟨subs2, ?_, hlen2, ?_⟩
    · simp only [configureLoop, List.getElem?_eq_getElem hi, hplace, hrun]
    · intro s hs
      rw [hsubs2 s hs, show i + 1 + n = i + (n + 1) by omega]

theorem bucketOf_nil (s : Nat) : bucketOf [] s = zeroSubframe := rfl

theorem vConfigureScheduler_spec (created : Option Nat) (cfg : TimelineConfig_t)
    (st : Scheduler)
    (hn : cfg.ulNumTasks ≤ cfg.tasks.length)
    (hid : ∀ t ∈ cfg.specs, t.ulSubframe_id < cfg.ulNumSubframes)
    (hcnt : ∀ s, s < cfg.ulNumSubframes →
      (hrtOf cfg.specs s).length ≤ MAX_HRT_PER_SUBFRAME ∧
      (srtOf cfg.specs s).length ≤ MAX_SRT_PER_SUBFRAME) :
    ∃ st1, vConfigureScheduler true created cfg st = some st1 ∧
      st1.g_cfg = cfg ∧
      st1.world.g_subframes.length = cfg.ulNumSubframes ∧
      (∀ s, s < cfg.ulNumSubframes → st1.world.g_subframes[s]? = some (bucketOf cfg.specs s)) ∧
      st1.world.tick = st.world.tick ∧ st1.world.calls = st.world.calls ∧
      st1.world.log = st.world.log := by
  obtain ⟨subs, hrun, hlen, hsubs⟩ := configureLoop_spec cfg cfg.ulNumSubframes hn hid hcnt
    cfg.ulNumTasks 0 (List.replicate cfg.ulNumSubframes zeroSubframe) (by omega) (by simp)
    (by intro s hs; simp [hs, bucketOf_nil])
  have hres : vConfigureScheduler true created cfg st
      = some { g_cfg := cfg
               xSchedulerHandle := match created with
                 | some h => some h
                 | none => st.xSchedulerHandle
               world := { st.world with g_subframes := subs } } := by
    simp [vConfigureScheduler, hrun]
  refine ⟨_, hres, rfl, hlen, ?_, rfl, rfl, rfl⟩
  intro s hs
  have := hsubs s hs
  simpa [TimelineConfig_t.specs] using this

/-- C11. Let the array hold `ulNumTasks` entries, let every sub-frame id of
these entries be below `ulNumSubframes`, and let no sub-frame have more than 8
HARD_RT or more than 8 other entries.  When the allocation succeeds,
`vConfigureScheduler` returns with `g_cfg` equal to the configuration and one
table per sub-frame; in the table of sub-frame `s` the HRT array holds, in
configured order, exactly the HARD_RT entries with `ulSubframe_id = s`, followed
by NULL cells, the SRT array likewise holds exactly the other entries with
`ulSubframe_id = s`, and `ucNumHrt`, `ucNumSrt` are the lengths of the two
lists.  An entry is in the HRT list of `s` exactly when it is HARD_RT with
sub-frame id `s`, and in the SRT list of `s` exactly when it is not HARD_RT and
has sub-frame id `s`. -/
theorem vConfigureScheduler_sorts (created : Option Nat) (cfg : TimelineConfig_t)
    (st : Scheduler)
    (hn : cfg.ulNumTasks ≤ cfg.tasks.length)
    (hid : ∀ t ∈ cfg.specs, t.ulSubframe_id < cfg.ulNumSubframes)
    (hcnt : ∀ s, s < cfg.ulNumSubframes →
      (hrtOf cfg.specs s).length ≤ MAX_HRT_PER_SUBFRAME ∧
      (srtOf cfg.specs s).length ≤ MAX_SRT_PER_SUBFRAME) :
    ∃ st1, vConfigureScheduler true created cfg st = some st1 ∧
      st1.g_cfg = cfg ∧
      st1.world.g_subframes.length = cfg.ulNumSubframes ∧
      (∀ s, s < cfg.ulNumSubframes → ∃ sf, st1.world.g_subframes[s]? = some sf ∧
        sf.ucNumHrt = (hrtOf cfg.specs s).length ∧
        sf.pxHrtTasks = (hrtOf cfg.specs s).map some ++
          List.replicate (MAX_HRT_PER_SUBFRAME - (hrtOf cfg.specs s).length) none ∧
        sf.ucNumSrt = (srtOf cfg.specs s).length ∧
        sf.pxSrtTasks = (srtOf cfg.specs s).map some ++
          List.replicate (MAX_SRT_PER_SUBFRAME - (srtOf cfg.specs s).length) none) ∧
      (∀ t ∈ cfg.specs, ∀ s,
        (t ∈ hrtOf cfg.specs s ↔ (t.type = .TASK_HARD_RT ∧ t.ulSubframe_id = s)) ∧
        (t ∈ srtOf cfg.specs s ↔ (t.type ≠ .TASK_HARD_RT ∧ t.ulSubframe_id = s))) := by
  obtain ⟨st1, hrun, hcfg, hlen, hsubs, _⟩ := vConfigureScheduler_spec created cfg st hn hid hcnt
  refine ⟨st1, hrun, hcfg, hlen, ?_, ?_⟩
  · intro s hs
    exact ⟨_, hsubs s hs, rfl, rfl, rfl, rfl⟩
  · intro t ht s
    simp [hrtOf, srtOf, List.mem_filter, ht]

/-- The table of `timeline_config.c`, sorted from the boot state. -/
theorem vConfigureScheduler_sorts_witness :
    ∃ st1, vConfigureScheduler true (some 1) g_timelineConfig bootScheduler = some st1 ∧
      st1.g_cfg = g_timelineConfig ∧
      st1.world.g_subframes.length = g_timelineConfig.ulNumSubframes ∧
      (∀ s, s < g_timelineConfig.ulNumSubframes → ∃ sf, st1.world.g_subframes[s]? = some sf ∧
        sf.ucNumHrt = (hrtOf g_timelineConfig.specs s).length ∧
        sf.pxHrtTasks = (hrtOf g_timelineConfig.specs s).map some ++
          List.replicate (MAX_HRT_PER_SUBFRAME - (hrtOf g_timelineConfig.specs s).length) none ∧
        sf.ucNumSrt = (srtOf g_timelineConfig.specs s).length ∧
        sf.pxSrtTasks = (srtOf g_timelineConfig.specs s).map some ++
          List.replicate (MAX_SRT_PER_SUBFRAME - (srtOf g_timelineConfig.specs s).length) none) ∧
      (∀ t ∈ g_timelineConfig.specs, ∀ s,
        (t ∈ hrtOf g_timelineConfig.specs s ↔ (t.type = .TASK_HARD_RT ∧ t.ulSubframe_id = s)) ∧
        (t ∈ srtOf g_timelineConfig.specs s ↔
          (t.type ≠ .TASK_HARD_RT ∧ t.ulSubframe_id = s))) :=
  vConfigureScheduler_sorts (some 1) g_timelineConfig bootScheduler (by decide) (by decide)
    (by decide)

/-! ## The HRT phase of `scheduler.c` runs the list in configured order -/

theorem bodiesOf_reads (ts : List Nat) : bodiesOf (ts.map SCall.xTaskGetTickCount) = [] := by
  induction ts with
  | nil => rfl
  | cons t ts ih => simp [bodiesOf, ih]

theorem bodiesOf_hrtCalls : ∀ (rs : List Reads) (cs : List TimelineTaskConfig_t),
    rs.length = cs.length → bodiesOf (hrtCalls rs cs) = cs.map (fun c => c.function)
  | [], [], _ => rfl
  | [], _ :: _, h => by simp at h
  | _ :: _, [], h => by simp at h
  | r :: rs, c :: cs, h => by
    simp only [hrtCalls, bodiesOf_append, bodiesOf_reads, bodiesOf, List.nil_append,
      List.map_cons, List.cons_append]
    rw [bodiesOf_hrtCalls rs cs (by simpa using h)]

theorem waitStart_safe (elapse : Nat → Nat) (xStart : Nat) :
    ∀ (fuel : Nat) (w w1 : World), waitStart elapse xStart fuel w = some w1 →
      ∃ (waits : List Nat) (te : Nat),
        w1.log = w.log ++ waits.map SCall.xTaskGetTickCount ++ [.xTaskGetTickCount te] ∧
        (∀ t ∈ waits, t < xStart) ∧ xStart ≤ te ∧ w1.tick = te ∧ w.tick ≤ te ∧
        w1.calls = w.calls + 2 * waits.length + 1 ∧
        w1.g_subframes = w.g_subframes
  | 0, _, _, h => by simp [waitStart] at h
  | fuel + 1, w, w1, h => by
    by_cases hlt : w.tick + elapse w.calls < xStart
    · have h2 : waitStart elapse xStart fuel (taskYIELD elapse (xTaskGetTickCount elapse w).2)
          = some w1 := by
        simpa [waitStart, xTaskGetTickCount, hlt] using h
      obtain ⟨waits, te, hlog, hw, hte, htk, hle, hcalls, hsub⟩ :=
        waitStart_safe elapse xStart fuel _ _ h2
      refine ⟨(w.tick + elapse w.calls) :: waits, te, ?_, ?_, hte, htk, ?_, ?_, ?_⟩
      · rw [hlog]; simp [taskYIELD, xTaskGetTickCount]
      · intro t ht
        rcases List.mem_cons.mp ht with h1 | h1
        · rw [h1]; exact hlt
        · exact hw t h1
      · simp [taskYIELD, xTaskGetTickCount] at hle; omega
      · rw [hcalls]; simp [taskYIELD, xTaskGetTickCount]; omega
      · rw [hsub]; rfl
    · have h2 : (xTaskGetTickCount elapse w).2 = w1 := by
        simpa [waitStart, xTaskGetTickCount, hlt] using h
      subst h2
      exact ⟨[], w.tick + elapse w.calls, by simp [xTaskGetTickCount], by simp, by omega, rfl,
        by omega, by simp [xTaskGetTickCount], rfl⟩

theorem waitStart_mono (elapse : Nat → Nat) (xStart : Nat) :
    ∀ (fuel k : Nat) (w w1 : World), waitStart elapse xStart fuel w = some w1 →
      waitStart elapse xStart (fuel + k) w = some w1
  | 0, _, _, _, h => by simp [waitStart] at h
  | fuel + 1, k, w, w1, h => by
    rw [show fuel + 1 + k = (fuel + k) + 1 by omega]
    by_cases hlt : w.tick + elapse w.calls < xStart
    · have h2 : waitStart elapse xStart fuel (taskYIELD elapse (xTaskGetTickCount elapse w).2)
          = some w1 := by
        simpa [waitStart, xTaskGetTickCount, hlt] using h
      have h3 := waitStart_mono elapse xStart fuel k _ _ h2
      simpa [waitStart, xTaskGetTickCount, hlt] using h3
    · have h2 : (xTaskGetTickCount elapse w).2 = w1 := by
        simpa [waitStart, xTaskGetTickCount, hlt] using h
      simpa [waitStart, xTaskGetTickCount, hlt] using h2

theorem waitStart_live (elapse : Nat → Nat) (xStart : Nat)
    (hfair : ∀ k, ∃ j, k ≤ j ∧ 0 < elapse j) :
    ∀ (d : Nat) (w : World), xStart ≤ w.tick + d →
      ∃ (fuel : Nat) (w1 : World), waitStart elapse xStart fuel w = some w1 := by
  intro d
  induction d with
  | zero =>
    intro w hw
    refine ⟨1, (xTaskGetTickCount elapse w).2, ?_⟩
    have hlt : ¬ w.tick + elapse w.calls < xStart := by omega
    simp [waitStart, xTaskGetTickCount, hlt]
  | succ d ih =>
    have inner : ∀ (g : Nat) (w : World), xStart ≤ w.tick + (d + 1) →
        (∃ j, w.calls ≤ j ∧ j ≤ w.calls + g ∧ 0 < elapse j) →
        ∃ (fuel : Nat) (w1 : World), waitStart elapse xStart fuel w = some w1 := by
      intro g
      induction g using Nat.strong_induction_on with
      | _ g ihg =>
        intro w hw hj
        by_cases hlt : w.tick + elapse w.calls < xStart
        · have hnext : ∃ (fuel : Nat) (w1 : World),
              waitStart elapse xStart fuel (taskYIELD elapse (xTaskGetTickCount elapse w).2)
                = some w1 := by
            by_cases hz : elapse w.calls = 0 ∧ elapse (w.calls + 1) = 0
            · obtain ⟨j, hj1, hj2, hj3⟩ := hj
              have hne0 : j ≠ w.calls := fun h => by rw [h] at hj3; omega
              have hne1 : j ≠ w.calls + 1 := fun h => by rw [h] at hj3; omega
              exact ihg (g - 2) (by omega) _
                (by simp [taskYIELD, xTaskGetTickCount]; omega)
                ⟨j, by simp [taskYIELD, xTaskGetTickCount]; omega,
                  by simp [taskYIELD, xTaskGetTickCount]; omega, hj3⟩
            · exact ih _ (by simp [taskYIELD, xTaskGetTickCount]; omega)
          obtain ⟨fuel, w1, hrun⟩ := hnext
          refine ⟨fuel + 1, w1, ?_⟩
          simpa [waitStart, xTaskGetTickCount, hlt] using hrun
        · refine ⟨1, (xTaskGetTickCount elapse w).2, ?_⟩
          simp [waitStart, xTaskGetTickCount, hlt]
    intro w hw
    obtain ⟨j, hj1, hj2⟩ := hfair w.calls
    exact inner (j - w.calls) w hw ⟨j, hj1, by omega, hj2⟩

theorem runHrtLoop_safe (elapse : Nat → Nat) (tickBits fuel : Nat) (sf : SubframeSchedule_t)
    (xSubStart : Nat) :
    ∀ (hrt : List TimelineTaskConfig_t) (i : Nat) (w w1 : World),
      (∀ j (h : j < hrt.length), sf.pxHrtTasks[i + j]? = some (some hrt[j])) →
      runHrtLoop elapse tickBits fuel sf xSubStart hrt.length i w = some w1 →
      ∃ (rs : List Reads),
        rs.length = hrt.length ∧
        w1.log = w.log ++ hrtCalls rs hrt ∧
        (∀ p ∈ List.zip rs hrt,
          (∀ t ∈ p.1.waits, t < (xSubStart + p.2.ulStart_time) % 2 ^ tickBits) ∧
          (xSubStart + p.2.ulStart_time) % 2 ^ tickBits ≤ p.1.exit ∧
          p.1.exit ≤ p.1.before ∧ p.1.before ≤ p.1.after) := by
  intro hrt
  induction hrt with
  | nil =>
    intro i w w1 _ h
    have : w = w1 := by simpa [runHrtLoop] using h
    subst this
    exact ⟨[], rfl, by simp [hrtCalls], by simp⟩
  | cons c rest ih =>
    intro i w w1 hcells hrun
    have h0 : sf.pxHrtTasks[i]? = some (some c) := by simpa using hcells 0 (by simp)
    have hrest : ∀ j (h : j < rest.length), sf.pxHrtTasks[i + 1 + j]? = some (some rest[j]) := by
      intro j hj
      have := hcells (j + 1) (by simpa using hj)
      simpa [Nat.add_assoc, Nat.add_comm 1 j] using this
    cases hwait : waitStart elapse ((xSubStart + c.ulStart_time) % 2 ^ tickBits) fuel w with
    | none => simp [runHrtLoop, h0, hwait] at hrun
    | some wa =>
      obtain ⟨waits, te, hwlog, hw, hte, htk, hle, _, _⟩ :=
        waitStart_safe elapse _ fuel w wa hwait
      have hrun2 : runHrtLoop elapse tickBits fuel sf xSubStart rest.length (i + 1)
          (xTaskGetTickCount elapse (callBody c (xTaskGetTickCount elapse wa).2)).2 = some w1 := by
        simpa [runHrtLoop, h0, hwait, xTaskGetTickCount, callBody] using hrun
      obtain ⟨rs, hlen, hlog, hrs⟩ := ih (i + 1) _ w1 hrest hrun2
      refine ⟨{ waits := waits, exit := te, before := wa.tick + elapse wa.calls,
                after := wa.tick + elapse wa.calls + elapse (wa.calls + 1 + 1) } :: rs,
        by simp [hlen], ?_, ?_⟩
      · rw [hlog]
        simp [xTaskGetTickCount, callBody, hrtCalls, hwlog]
      · intro p hp
        simp only [List.zip_cons_cons, List.mem_cons] at hp
        rcases hp with h1 | h1
        · rw [h1]
          exact ⟨hw, hte, by simp; omega, by simp⟩
        · exact hrs p h1

theorem runHrtLoop_mono (elapse : Nat → Nat) (tickBits fuel k : Nat) (sf : SubframeSchedule_t)
    (xSubStart : Nat) :
    ∀ (n i : Nat) (w w1 : World),
      runHrtLoop elapse tickBits fuel sf xSubStart n i w = some w1 →
      runHrtLoop elapse tickBits (fuel + k) sf xSubStart n i w = some w1
  | 0, _, _, _, h => by simpa [runHrtLoop] using h
  | n + 1, i, w, w1, h => by
    cases hc : sf.pxHrtTasks[i]? with
    | none => simp [runHrtLoop, hc] at h
    | some oc =>
      cases oc with
      | none => simp [runHrtLoop, hc] at h
      | some c =>
        cases hwait : waitStart elapse ((xSubStart + c.ulStart_time) % 2 ^ tickBits) fuel w with
        | none => simp [runHrtLoop, hc, hwait] at h
        | some wa =>
          have h2 : runHrtLoop elapse tickBits fuel sf xSubStart n (i + 1)
              (xTaskGetTickCount elapse (callBody c (xTaskGetTickCount elapse wa).2)).2
                = some w1 := by
            simpa [runHrtLoop, hc, hwait, xTaskGetTickCount, callBody] using h
          have h3 := runHrtLoop_mono elapse tickBits fuel k sf xSubStart n (i + 1) _ _ h2
          have h4 := waitStart_mono elapse _ fuel k w wa hwait
          simpa [runHrtLoop, hc, h4, xTaskGetTickCount, callBody] using h3

theorem runHrtLoop_live (elapse : Nat → Nat) (tickBits : Nat) (sf : SubframeSchedule_t)
    (xSubStart : Nat) (hfair : ∀ k, ∃ j, k ≤ j ∧ 0 < elapse j) :
    ∀ (hrt : List TimelineTaskConfig_t) (i : Nat) (w : World),
      (∀ j (h : j < hrt.length), sf.pxHrtTasks[i + j]? = some (some hrt[j])) →
      ∃ (fuel : Nat) (w1 : World),
        runHrtLoop elapse tickBits fuel sf xSubStart hrt.length i w = some w1 := by
  intro hrt
  induction hrt with
  | nil => intro i w _; exact ⟨0, w, rfl⟩
  | cons c rest ih =>
    intro i w hcells
    have h0 : sf.pxHrtTasks[i]? = some (some c) := by simpa using hcells 0 (by simp)
    have hrest : ∀ j (h : j < rest.length), sf.pxHrtTasks[i + 1 + j]? = some (some rest[j]) := by
      intro j hj
      have := hcells (j + 1) (by simpa using hj)
      simpa [Nat.add_assoc, Nat.add_comm 1 j] using this
    obtain ⟨f1, wa, hwait⟩ :=
      waitStart_live elapse ((xSubStart + c.ulStart_time) % 2 ^ tickBits) hfair
        ((xSubStart + c.ulStart_time) % 2 ^ tickBits) w (by omega)
    obtain ⟨f2, w1, hrun⟩ := ih (i + 1)
      (xTaskGetTickCount elapse (callBody c (xTaskGetTickCount elapse wa).2)).2 hrest
    refine ⟨f1 + f2, w1, ?_⟩
    have h4 := waitStart_mono elapse _ f1 f2 w wa hwait
    have h5 := runHrtLoop_mono elapse tickBits f2 f1 sf xSubStart rest.length (i + 1) _ _ hrun
    rw [Nat.add_comm f2 f1] at h5
    simpa [runHrtLoop, h0, h4, xTaskGetTickCount, callBody] using h5

theorem cellsOf_getElem? (size : Nat) (l : List TimelineTaskConfig_t) (j : Nat)
    (h : j < l.length) : (cellsOf size l)[j]? = some (some l[j]) := by
  unfold cellsOf
  rw [List.getElem?_append_left (by simpa using h)]
  simp [List.getElem?_eq_getElem h]

set_option maxRecDepth 100000 in
/-- C12, counterexample. The table `swappedConfig` lists, in sub-frame 0,
`ControlLoop` (start offset 10, function 2) before `ReadSensor` (start offset 0,
function 1).  After `vConfigureScheduler` the HRT phase of sub-frame 0 calls
function 2 and then function 1: the second activation has start offset 0,
below the start offset 10 of the one before it. -/
theorem hrt_activation_not_by_start_offset :
    ((vConfigureScheduler true (some 1) swappedConfig bootScheduler).bind
        (fun st => prvRunHrtTasks (fun _ => 5) 32 100 0 0 st.world)).map (fun w => bodiesOf w.log)
      = some [2, 1] ∧
    (hrtOf swappedConfig.specs 0).map (fun c => (c.function, c.ulStart_time))
      = [(2, 10), (1, 0)] ∧
    ¬ (10 ≤ 0) := by
  decide

/-- C12, amended. Let the table be well formed: the array holds `ulNumTasks`
entries, the sub-frame ids are below `ulNumSubframes`, and no sub-frame has
more than 8 entries of a kind.  Then `vConfigureScheduler` returns, and for
every sub-frame `s`, every clock and every width of `TickType_t`:

* whenever `prvRunHrtTasks` returns for sub-frame `s`, it has activated the
  HARD_RT entries of `s` in configured order, the order of the task table,
  whatever their start offsets: the calls it made are, for each entry in turn,
  reads of the tick counter below the start tick
  `(xSubStart + ulStart_time) mod 2 ^ tickBits`, one read at or after that tick,
  one more read, the call of the body, and a read; the bodies called are those
  of the HARD_RT entries of `s` in table order;
* when the tick counter keeps advancing (after every call some later call sees
  a tick pass), `prvRunHrtTasks` does return: with the same result for every
  loop bound from some bound on.  Two successive reads may see the same tick. -/
theorem hrt_phase_configured_order (elapse : Nat → Nat) (tickBits : Nat) (created : Option Nat)
    (cfg : TimelineConfig_t) (st : Scheduler) (s xSubStart : Nat)
    (hn : cfg.ulNumTasks ≤ cfg.tasks.length)
    (hid : ∀ t ∈ cfg.specs, t.ulSubframe_id < cfg.ulNumSubframes)
    (hcnt : ∀ s, s < cfg.ulNumSubframes →
      (hrtOf cfg.specs s).length ≤ MAX_HRT_PER_SUBFRAME ∧
      (srtOf cfg.specs s).length ≤ MAX_SRT_PER_SUBFRAME)
    (hs : s < cfg.ulNumSubframes) :
    ∃ (st1 : Scheduler),
      vConfigureScheduler true created cfg st = some st1 ∧
      (∀ (fuel : Nat) (w1 : World),
        prvRunHrtTasks elapse tickBits fuel s xSubStart st1.world = some w1 →
        ∃ (rs : List Reads),
          rs.length = (hrtOf cfg.specs s).length ∧
          w1.log = st1.world.log ++ hrtCalls rs (hrtOf cfg.specs s) ∧
          bodiesOf (hrtCalls rs (hrtOf cfg.specs s))
            = (hrtOf cfg.specs s).map (fun c => c.function) ∧
          (∀ p ∈ List.zip rs (hrtOf cfg.specs s),
            (∀ t ∈ p.1.waits, t < (xSubStart + p.2.ulStart_time) % 2 ^ tickBits) ∧
            (xSubStart + p.2.ulStart_time) % 2 ^ tickBits ≤ p.1.exit ∧
            p.1.exit ≤ p.1.before ∧ p.1.before ≤ p.1.after)) ∧
      ((∀ k, ∃ j, k ≤ j ∧ 0 < elapse j) →
        ∃ (fuel0 : Nat) (w1 : World), ∀ fuel, fuel0 ≤ fuel →
          prvRunHrtTasks elapse tickBits fuel s xSubStart st1.world = some w1) := by
  obtain ⟨st1, hrun, _, _, hsubs, _, _, _⟩ :=
    vConfigureScheduler_spec created cfg st hn hid hcnt
  have hsf := hsubs s hs
  have hcells : ∀ j (h : j < (hrtOf cfg.specs s).length),
      (bucketOf cfg.specs s).pxHrtTasks[0 + j]? = some (some (hrtOf cfg.specs s)[j]) := by
    intro j h
    rw [Nat.zero_add]
    exact cellsOf_getElem? _ _ j h
  refine ⟨st1, hrun, ?_, ?_⟩
  · intro fuel w1 hphase
    have hloop : runHrtLoop elapse tickBits fuel (bucketOf cfg.specs s) xSubStart
        (hrtOf cfg.specs s).length 0 st1.world = some w1 := by
      simpa [prvRunHrtTasks, hsf, bucketOf] using hphase
    obtain ⟨rs, hlen, hlog, hrs⟩ :=
      runHrtLoop_safe elapse tickBits fuel (bucketOf cfg.specs s) xSubStart
        (hrtOf cfg.specs s) 0 st1.world w1 hcells hloop
    exact ⟨rs, hlen, hlog, bodiesOf_hrtCalls rs _ hlen, hrs⟩
  · intro hfair
    obtain ⟨fuel0, w1, hloop⟩ :=
      runHrtLoop_live elapse tickBits (bucketOf cfg.specs s) xSubStart hfair
        (hrtOf cfg.specs s) 0 st1.world hcells
    refine ⟨fuel0, w1, fun fuel hf => ?_⟩
    obtain ⟨k, rfl⟩ : ∃ k, fuel = fuel0 + k := ⟨fuel - fuel0, by omega⟩
    have := runHrtLoop_mono elapse tickBits fuel0 k (bucketOf cfg.specs s) xSubStart _ 0 _ _ hloop
    simpa [prvRunHrtTasks, hsf, bucketOf] using this

/-- The table of `timeline_config.c`, sub-frame 0 starting at tick 0, with a
32-bit `TickType_t` and a clock on which a tick passes at every third call,
so that successive reads often see the same tick: the phase returns. -/
theorem hrt_phase_configured_order_witness :
    ∃ (st1 : Scheduler),
      vConfigureScheduler true (some 1) g_timelineConfig bootScheduler = some st1 ∧
      (∀ (fuel : Nat) (w1 : World),
        prvRunHrtTasks (fun k => if k % 3 = 0 then 1 else 0) 32 fuel 0 0 st1.world = some w1 →
        ∃ (rs : List Reads),
          rs.length = (hrtOf g_timelineConfig.specs 0).length ∧
          w1.log = st1.world.log ++ hrtCalls rs (hrtOf g_timelineConfig.specs 0) ∧
          bodiesOf (hrtCalls rs (hrtOf g_timelineConfig.specs 0))
            = (hrtOf g_timelineConfig.specs 0).map (fun c => c.function) ∧
          (∀ p ∈ List.zip rs (hrtOf g_timelineConfig.specs 0),
            (∀ t ∈ p.1.waits, t < (0 + p.2.ulStart_time) % 2 ^ 32) ∧
            (0 + p.2.ulStart_time) % 2 ^ 32 ≤ p.1.exit ∧
            p.1.exit ≤ p.1.before ∧ p.1.before ≤ p.1.after)) ∧
      (∃ (fuel0 : Nat) (w1 : World), ∀ fuel, fuel0 ≤ fuel →
          prvRunHrtTasks (fun k => if k % 3 = 0 then 1 else 0) 32 fuel 0 0 st1.world
            = some w1) := by
  obtain ⟨st1, h1, h2, h3⟩ :=
    hrt_phase_configured_order (fun k => if k % 3 = 0 then 1 else 0) 32 (some 1)
      g_timelineConfig bootScheduler 0 0 (by decide) (by decide) (by decide) (by decide)
  exact ⟨st1, h1, h2, h3 (fun k => ⟨3 * k, by omega, by simp⟩)⟩

end Sched
